import Mathlib

/-!
# kecho: the echo server's worker and daemon, and the benchmark's payload generator

A shallow embedding of `src/echo_server.c`, `src/echo_server.h` and of
`GenRandString` from `src/bench.c`.

Conventions of the embedding.

* A byte (`unsigned char`, `char`) is a natural number; a buffer is a list of bytes.
* A 64-bit word is a natural number below `2 ^ 64`; the C operations that can
  wrap are written with an explicit `% 2 ^ 64`.
* An `atomic_t` counter is an `Int`; `atomic_add` wraps to 32 bits.
* Everything the kernel, the peer or the C library decides (what `rand()` returns,
  what `kernel_recvmsg` delivers, what `kernel_sendmsg` returns, whether `kmalloc`
  succeeds, whether the daemon has set `daemon.is_stopped` by now, ...) is an
  input of the embedded function: a list of observations, one per loop pass.
  A list that ends before the loop does describes a run that is still in the
  loop (blocked in the kernel).
* Every kernel call a function makes is appended to a log, so that what was
  called, in which order and with which arguments can be stated.
* Each function is embedded as the one thread that runs it. What other threads
  do meanwhile is not part of a function's result; a worker sees the daemon's
  write of `daemon.is_stopped` through its observations.
-/

namespace Kecho

/-! ## bench.c: `GenRandString` -/

namespace Bench

/-- The constant `MAX_MSG_LEN` of bench.c. -/
def MAX_MSG_LEN : Nat := 32

/-- The macro `GENRAND64(X)`: `((X) & 0x7F7F7F7F7F7F7F7F) | 0x2020202020202020`. -/
def GENRAND64 (X : Nat) : Nat := (X &&& 0x7F7F7F7F7F7F7F7F) ||| 0x2020202020202020

/-- The macro `GENRAND8(X)`: `((X) & 0x7F) | 0x20`. -/
def GENRAND8 (X : Nat) : Nat := (X &&& 0x7F) ||| 0x20

/-- The macro `DETECT_NULL(X)`: `((X) - 0x0101010101010101) & ~(X) & 0x8080808080808080` on
`uint64_t`: the subtraction wraps modulo `2 ^ 64` and `~X` is `2 ^ 64 - 1 - X`. -/
def DETECT_NULL (X : Nat) : Nat :=
  ((X + 2 ^ 64 - 0x0101010101010101) % 2 ^ 64) &&& (2 ^ 64 - 1 - X) &&& 0x8080808080808080

/-- The macro `DETECT_CHAR(X, MASK)`: `DETECT_NULL((X) ^ (MASK))`. -/
def DETECT_CHAR (X MASK : Nat) : Nat := DETECT_NULL (X ^^^ MASK)

/-- Byte `i` of a word (byte 0 is the least significant one). -/
def byteAt (w i : Nat) : Nat := w / 256 ^ i % 256

/-- The eight bytes of a 64-bit word in the order in which a little-endian
machine stores them through a `uint64_t *`. -/
def bytes64 (w : Nat) : List Nat := (List.range 8).map (byteAt w)

/-- Writing the bytes `bs` into the character array `str` from offset `pos` on. -/
def store (str : List Nat) (pos : Nat) (bs : List Nat) : List Nat :=
  str.take pos ++ bs ++ str.drop (pos + bs.length)

/-- The C string held by a character array: the bytes before the first NUL. -/
def cstr (str : List Nat) : List Nat := str.takeWhile (fun b => b ≠ 0)

/-- The operand `(uint64_t) rand() << 32 | rand()`, given the value of the left
call (`hi`) and that of the right call (`lo`). -/
def rand64_of (hi lo : Nat) : Nat := ((hi % 2 ^ 64) * 2 ^ 32 % 2 ^ 64) ||| (lo % 2 ^ 64)

/-- The first loop of `GenRandString`, `while (size >= 8)`. The arguments are the
values `rand()` is still to return, `size`, the byte offset of `lptr` in `str`, and
the array. Each pass draws two values, writes the word through `lptr`, and starts
over without advancing when the word holds a DEL. C leaves open which of the two
`rand()` calls of the expression runs first: `left_first` tells whether it is the
left one. The result is `none` when the values run out inside the loop. -/
def word_loop (left_first : Bool) :
    List Nat → Nat → Nat → List Nat → Option (List Nat × Nat × Nat × List Nat)
  | r1 :: r2 :: rest, size, lptr, str =>
    if 8 ≤ size then
      let rand64 := if left_first then rand64_of r1 r2 else rand64_of r2 r1
      let w := GENRAND64 rand64
      let str1 := store str lptr (bytes64 w)
      if DETECT_CHAR w 0x7F7F7F7F7F7F7F7F ≠ 0 then word_loop left_first rest size lptr str1
      else word_loop left_first rest (size - 8) (lptr + 8) str1
    else some (r1 :: r2 :: rest, size, lptr, str)
  | rs, size, lptr, str => if 8 ≤ size then none else some (rs, size, lptr, str)

/-- The second loop of `GenRandString`, `while (size)`: one `rand()` value per pass,
written through `cptr`; a DEL is written and then overwritten by the next pass. -/
def byte_loop : List Nat → Nat → Nat → List Nat → Option (Nat × List Nat)
  | r :: rest, size, cptr, str =>
    if size ≠ 0 then
      let c := GENRAND8 r
      let str1 := store str cptr [c]
      if c = 0x7F then byte_loop rest size cptr str1
      else byte_loop rest (size - 1) (cptr + 1) str1
    else some (cptr, str)
  | [], size, cptr, str => if size ≠ 0 then none else some (cptr, str)

/-- The function `GenRandString(str)`: `rs` lists the values the successive `rand()`
calls return, `str` is the caller's array as it is on entry. The result is the
array on return, or `none` when `rs` is used up before the function returns. -/
def GenRandString (left_first : Bool) (rs : List Nat) (str : List Nat) :
    Option (List Nat) :=
  match rs with
  | [] => none
  | r0 :: rs1 =>
    let size := (r0 &&& (MAX_MSG_LEN - 1)) + 1
    match word_loop left_first rs1 size 0 str with
    | none => none
    | some (rs2, size2, lptr, str2) =>
      match byte_loop rs2 size2 lptr str2 with
      | none => none
      | some (cptr, str3) => some (store str3 cptr [0])

end Bench

/-! ## echo_server.h and echo_server.c -/

namespace Server

/-- The constant `BUF_SIZE` of echo_server.c. -/
def BUF_SIZE : Nat := 4096

/-- The constant `SHUT_RDWR` of the kernel headers. -/
def SHUT_RDWR : Nat := 2

/-- The type `struct runtime_state`: the eight `atomic_t` counters. -/
structure runtime_state where
  kzalloc_err : Int
  get_err : Int
  send_err : Int
  recvmsg : Int
  sendmsg : Int
  shutdown : Int
  accept_err : Int
  work_err : Int
  deriving DecidableEq

/-- The least value of an `int`. -/
def INT_MIN : Int := -2147483648

/-- The greatest value of an `int`. -/
def INT_MAX : Int := 2147483647

/-- The value an `int` takes when a result is stored in it: reduction to
`[-2 ^ 31, 2 ^ 31)`. -/
def wrap32 (x : Int) : Int := (x + 2147483648) % 4294967296 - 2147483648

/-- The call `atomic_add(i, &v)` on an `atomic_t`: a 32-bit addition that wraps. -/
def atomic_add (i v : Int) : Int := wrap32 (v + i)

/-- The names `TRACE` is used with. -/
inductive Ops where
  | kzalloc_err | get_err | send_err | recvmsg | sendmsg | shutdown | accept_err | work_err
  deriving DecidableEq

/-- The anonymous `enum` of echo_server.h: `TRACE_kzalloc_err = 1`, then counting up. -/
def TRACE_id : Ops → Nat
  | .kzalloc_err => 1
  | .get_err => 2
  | .send_err => 3
  | .recvmsg => 4
  | .sendmsg => 5
  | .shutdown => 6
  | .accept_err => 7
  | .work_err => 8

/-- The call `atomic_add(1, &states.ops)`. -/
def states_add (op : Ops) (s : runtime_state) : runtime_state :=
  match op with
  | .kzalloc_err => { s with kzalloc_err := atomic_add 1 s.kzalloc_err }
  | .get_err => { s with get_err := atomic_add 1 s.get_err }
  | .send_err => { s with send_err := atomic_add 1 s.send_err }
  | .recvmsg => { s with recvmsg := atomic_add 1 s.recvmsg }
  | .sendmsg => { s with sendmsg := atomic_add 1 s.sendmsg }
  | .shutdown => { s with shutdown := atomic_add 1 s.shutdown }
  | .accept_err => { s with accept_err := atomic_add 1 s.accept_err }
  | .work_err => { s with work_err := atomic_add 1 s.work_err }

/-- The macro `TRACE(ops)`: `if (TRACE_##ops) atomic_add(1, &states.ops);`. -/
def TRACE (op : Ops) (s : runtime_state) : runtime_state :=
  if TRACE_id op ≠ 0 then states_add op s else s

/-- The type `struct kecho`: `addr` is the address of the structure (which is also what
identifies its `list` and `kecho_work` members), `sock` the connection. -/
structure kecho where
  addr : Nat
  sock : Nat
  deriving DecidableEq

/-- The type `struct echo_service`: the flag and the list `worker`, head first. -/
structure echo_service where
  is_stopped : Bool
  worker : List kecho
  deriving DecidableEq

/-- The calls into the kernel that the embedded functions make, with their
arguments (and, for the two transfers, what came back). -/
inductive Event where
  /-- The call `kzalloc(BUF_SIZE, GFP_KERNEL)`; `ok` is false when it returned NULL. -/
  | kzalloc (size : Nat) (ok : Bool)
  /-- The call `kernel_recvmsg(sock, .., size, ..)`: the buffer after the call and the result. -/
  | kernel_recvmsg (sock : Nat) (size : Nat) (buf : List Nat) (length : Int)
  /-- The call `kernel_sendmsg(sock, &msg, &vec, 1, size)`: `iov` holds the `vec.iov_len`
  bytes at `vec.iov_base`, or `none` when `strlen` found no terminator. -/
  | kernel_sendmsg (sock : Nat) (iov : Option (List Nat)) (size : Nat) (length : Int)
  /-- The call `memset(buf, 0, n)`: the buffer after the call. -/
  | memset (n : Nat) (buf : List Nat)
  | kernel_sock_shutdown (sock : Nat) (how : Nat)
  /-- The call `kfree(buf)` in the worker. -/
  | kfree_buf
  | kernel_accept (error : Int)
  /-- The call `kmalloc(sizeof(struct kecho), GFP_KERNEL)`. -/
  | kmalloc (result : Option Nat)
  | queue_work (work : Nat)
  | sock_release (sock : Nat)
  | flush_work (work : Nat)
  /-- The call `kfree(tar)` in `free_work`. -/
  | kfree (addr : Nat)
  /-- The eight `printk` lines of `do_analysis`: the values read. -/
  | printk (snapshot : runtime_state)
  deriving DecidableEq

/-- The globals of echo_server.c (`daemon`, `states`), the work queue `kecho_wq`
(the work items queued on it, oldest first) and the log of kernel calls. -/
structure World where
  daemon : echo_service
  states : runtime_state
  kecho_wq : List Nat
  log : List Event
  deriving DecidableEq

/-- Appending one kernel call to the log. -/
def World.emit (g : World) (e : Event) : World := { g with log := g.log ++ [e] }

/-- The macro `TRACE(op)` on the global `states`. -/
def World.trace (g : World) (op : Ops) : World := { g with states := TRACE op g.states }

/-- The write `daemon.is_stopped = true` of `echo_server_daemon`, seen from a
worker: done when `b` is true. -/
def World.stop_if (g : World) (b : Bool) : World :=
  if b then { g with daemon := { g.daemon with is_stopped := true } } else g

/-- The call `strlen(buf)`: the index of the first zero byte; `none` when the scan leaves
the buffer without having met one. -/
def strlen : List Nat → Option Nat
  | [] => none
  | b :: bs => if b = 0 then some 0 else (strlen bs).map (fun n => n + 1)

/-- The call `memset(buf, 0, n)`, as far as it concerns the bytes of `buf`: the
first `n` of them become zero. -/
def memset (buf : List Nat) (n : Nat) : List Nat :=
  (buf.take n).map (fun _ => 0) ++ buf.drop n

/-- What one call of `kernel_recvmsg` does: it fails, or it stores the bytes it
received at the start of the buffer (none at all at end of stream). -/
inductive Recv where
  /-- The call returns the negative value `-(e + 1)` and stores nothing. -/
  | error (e : Nat)
  /-- The call stores `bytes` and returns their number. -/
  | data (bytes : List Nat)
  deriving DecidableEq

/-- The return value of the call and the buffer after it. That the kernel stores
no more than the `size` bytes asked for is a property of the observation
(`bytes.length ≤ size`), assumed where it matters. -/
def kernel_recvmsg (r : Recv) (buf : List Nat) : Int × List Nat :=
  match r with
  | .error e => (-((e : Int) + 1), buf)
  | .data bytes => ((bytes.length : Int), bytes ++ buf.drop bytes.length)

/-- The function `get_request(sock, buf, size)`: the result, the buffer after the
call, and the globals. -/
def get_request (sock : Nat) (r : Recv) (buf : List Nat) (size : Nat) (g : World) :
    Int × List Nat × World :=
  match kernel_recvmsg r buf with
  | (length, buf1) =>
    (length, buf1, (g.emit (.kernel_recvmsg sock size buf1 length)).trace .recvmsg)

/-- The function `send_request(sock, buf, size)`: `vec.iov_len = strlen(buf)`, then
one `kernel_sendmsg` whose return value is `sent`. -/
def send_request (sock : Nat) (sent : Int) (buf : List Nat) (size : Nat) (g : World) :
    Int × World :=
  let iov := (strlen buf).map (fun iov_len => buf.take iov_len)
  (sent, (g.emit (.kernel_sendmsg sock iov size sent)).trace .sendmsg)

/-- What one pass of the worker's loop meets: whether `echo_server_daemon` has
set `daemon.is_stopped` since the previous test, what `kernel_recvmsg` does and
what `kernel_sendmsg` returns. -/
structure Cycle where
  daemon_stops : Bool
  recv : Recv
  send : Int
  deriving DecidableEq

/-- One pass of the `while (!daemon.is_stopped)` loop of `echo_server_worker`: the
test of the flag and the loop body. The first component of the result is true
when the loop is left (by the test or by a `break`) and false when the next pass
follows. -/
def echo_pass (sock : Nat) (c : Cycle) (buf : List Nat) (g : World) :
    Bool × List Nat × World :=
  let g0 := g.stop_if c.daemon_stops
  if g0.daemon.is_stopped then (true, buf, g0)
  else
    match get_request sock c.recv buf (BUF_SIZE - 1) g0 with
    | (res, buf1, g1) =>
      if res ≤ 0 then
        (true, buf1, if res ≠ 0 then g1.trace .get_err else g1)
      else
        match send_request sock c.send buf1 res.toNat g1 with
        | (res2, g2) =>
          if res2 < 0 then (true, buf1, g2.trace .send_err)
          else
            let buf2 := memset buf1 res2.toNat
            (false, buf2, g2.emit (.memset res2.toNat buf2))

/-- The loop of `echo_server_worker`: passes until one leaves the loop. The first
component of the result tells whether the loop was left (false: the
observations ended first). -/
def echo_loop (sock : Nat) : List Cycle → List Nat → World → Bool × List Nat × World
  | [], buf, g => (false, buf, g)
  | c :: cs, buf, g =>
    match echo_pass sock c buf g with
    | (true, buf1, g1) => (true, buf1, g1)
    | (false, buf1, g1) => echo_loop sock cs buf1 g1

/-- The `rekzalloc:` retry: `kfail` failed attempts, each counted. -/
def rekzalloc : Nat → World → World
  | 0, g => g
  | kfail + 1, g => rekzalloc kfail ((g.emit (.kzalloc BUF_SIZE false)).trace .kzalloc_err)

/-- The state of a worker: whether `echo_server_worker` has returned, its buffer
(as last written), and the globals. -/
structure WorkerRun where
  returned : Bool
  buf : List Nat
  world : World
  deriving DecidableEq

/-- The function `echo_server_worker(work)` for the item `w`: `kzalloc` fails `kfail`
times and then returns a zeroed buffer; `env` is what the passes of the loop
meet. -/
def echo_server_worker (w : kecho) (kfail : Nat) (env : List Cycle) (g : World) : WorkerRun :=
  let g0 := (rekzalloc kfail g).emit (.kzalloc BUF_SIZE true)
  match echo_loop w.sock env (List.replicate BUF_SIZE 0) g0 with
  | (false, buf, g1) => ⟨false, buf, g1⟩
  | (true, buf, g1) =>
    ⟨true, buf,
      ((g1.emit (.kernel_sock_shutdown w.sock SHUT_RDWR)).trace .shutdown).emit .kfree_buf⟩

/-- The function `create_work(sk)`: `kmalloc` returns `km` (`none` for NULL); on
success the new item is put at the head of `daemon.worker` (`list_add`). -/
def create_work (sk : Nat) (km : Option Nat) (g : World) : Option Nat × World :=
  match km with
  | none => (none, g.emit (.kmalloc none))
  | some addr =>
    let g1 := g.emit (.kmalloc (some addr))
    (some addr, { g1 with daemon := { g1.daemon with worker := ⟨addr, sk⟩ :: g1.daemon.worker } })

/-- The function `free_work()`, for the items from `tar` on: the loop body of
`list_for_each_entry_safe`. Nothing is unlinked from `daemon.worker`. -/
def free_work_from : List kecho → World → World
  | [], g => g
  | tar :: rest, g =>
    free_work_from rest
      ((((g.emit (.kernel_sock_shutdown tar.sock SHUT_RDWR)).emit (.flush_work tar.addr)).emit
        (.sock_release tar.sock)).emit (.kfree tar.addr))

/-- The function `free_work()`. -/
def free_work (g : World) : World := free_work_from g.daemon.worker g

/-- The function `do_analysis()`. -/
def do_analysis (g : World) : World := g.emit (.printk g.states)

/-- What one pass of the accept loop meets: `kthread_should_stop()`, the return
value of `kernel_accept` and the socket it stored, `signal_pending(current)`, and
what `kmalloc` returns in `create_work`. -/
structure Accept where
  should_stop : Bool
  error : Int
  sock : Nat
  signal_pending : Bool
  kmalloc : Option Nat
  deriving DecidableEq

/-- How the body of a loop is left. -/
inductive Ctl where
  | continue_
  | break_
  deriving DecidableEq

/-- The body of the accept loop, from `kernel_accept` on. -/
def accept_body (a : Accept) (g : World) : Ctl × World :=
  let g1 := g.emit (.kernel_accept a.error)
  if a.error < 0 then
    if a.signal_pending then (.break_, g1)
    else (.continue_, g1.trace .accept_err)
  else
    match create_work a.sock a.kmalloc g1 with
    | (none, g2) =>
      (.continue_,
        ((g2.trace .work_err).emit (.kernel_sock_shutdown a.sock SHUT_RDWR)).emit
          (.sock_release a.sock))
    | (some work, g2) =>
      (.continue_, { g2.emit (.queue_work work) with kecho_wq := g2.kecho_wq ++ [work] })

/-- The loop `while (!kthread_should_stop())` of `echo_server_daemon`. The first
component tells whether the loop was left. -/
def accept_loop : List Accept → World → Bool × World
  | [], g => (false, g)
  | a :: rest, g =>
    if a.should_stop then (true, g)
    else
      match accept_body a g with
      | (.break_, g1) => (true, g1)
      | (.continue_, g1) => accept_loop rest g1

/-- The end of `echo_server_daemon`: `daemon.is_stopped = true; do_analysis();
free_work();`. -/
def shutdown_sequence (g : World) : World :=
  free_work (do_analysis { g with daemon := { g.daemon with is_stopped := true } })

/-- The function `echo_server_daemon` from its `while` loop on: the loop, and the
shutdown sequence once the loop is left. The first component tells whether the
function has returned. -/
def daemon_from_loop (env : List Accept) (g : World) : Bool × World :=
  match accept_loop env g with
  | (false, g1) => (false, g1)
  | (true, g1) => (true, shutdown_sequence g1)

/-- The function `echo_server_daemon(arg)`: `INIT_LIST_HEAD(&daemon.worker)`, then
the loop and the shutdown sequence. -/
def echo_server_daemon (env : List Accept) (g : World) : Bool × World :=
  daemon_from_loop env { g with daemon := { g.daemon with worker := [] } }

/-- The property of a logged call that its buffer is `BUF_SIZE` bytes long with a
zero last byte (for a receive or a `memset`), or that `strlen` found a
terminator at an index of at most `BUF_SIZE - 1` (for a send). -/
def Event.terminated : Event → Prop
  | .kernel_recvmsg _ _ buf _ => buf.length = BUF_SIZE ∧ buf[BUF_SIZE - 1]? = some 0
  | .memset _ buf => buf.length = BUF_SIZE ∧ buf[BUF_SIZE - 1]? = some 0
  | .kernel_sendmsg _ iov _ _ => ∃ bytes, iov = some bytes ∧ bytes.length ≤ BUF_SIZE - 1
  | _ => True

/-- A state of the globals used in the examples: the flag clear, one work item (at
address 1, for the connection on socket 7) in the registry, all counters zero,
nothing queued, nothing logged. -/
def sample_world : World :=
  ⟨⟨false, [⟨1, 7⟩]⟩, ⟨0, 0, 0, 0, 0, 0, 0, 0⟩, [], []⟩

end Server

end Kecho

/-! ## Theorems about bench.c -/

namespace Kecho

namespace Bench

theorem byteAt_testBit (w i j : Nat) :
    (byteAt w i).testBit j = (decide (j < 8) && w.testBit (8 * i + j)) := by
  unfold byteAt
  have h1 : (256 : Nat) ^ i = 2 ^ (8 * i) := by
    rw [pow_mul]; norm_num
  have h2 : (256 : Nat) = 2 ^ 8 := by norm_num
  rw [h1, ← Nat.shiftRight_eq_div_pow, h2, Nat.testBit_mod_two_pow, Nat.testBit_shiftRight]

theorem byteAt_xor (a b i : Nat) : byteAt (a ^^^ b) i = byteAt a i ^^^ byteAt b i := by
  apply Nat.eq_of_testBit_eq
  intro j
  simp only [byteAt_testBit, Nat.testBit_xor]
  by_cases h : j < 8 <;> simp [h]

theorem byteAt_and (a b i : Nat) : byteAt (a &&& b) i = byteAt a i &&& byteAt b i := by
  apply Nat.eq_of_testBit_eq
  intro j
  simp only [byteAt_testBit, Nat.testBit_land]
  by_cases h : j < 8 <;> simp [h]

theorem byteAt_or (a b i : Nat) : byteAt (a ||| b) i = byteAt a i ||| byteAt b i := by
  apply Nat.eq_of_testBit_eq
  intro j
  simp only [byteAt_testBit, Nat.testBit_lor]
  by_cases h : j < 8 <;> simp [h]

/-- Where the word has a zero byte, the wrapped difference has the top bit of
that byte set (the byte of the difference is 0xFF or 0xFE). -/
theorem sub_top_bit_of_zero (v i : Nat) (hi : i < 8) (hz : byteAt v i = 0) :
    (v + 2 ^ 64 - 0x0101010101010101) % 2 ^ 64 / 2 ^ (8 * i + 7) % 2 = 1 := by
  unfold byteAt at hz
  interval_cases i <;>
    simp only [Nat.reducePow, Nat.reduceMul, Nat.reduceAdd] at hz ⊢ <;> omega

/-- Where the word has a zero byte, its complement has the top bit of that byte set. -/
theorem not_top_bit_of_zero (v i : Nat) (hv : v < 2 ^ 64) (hi : i < 8)
    (hz : byteAt v i = 0) : (2 ^ 64 - 1 - v) / 2 ^ (8 * i + 7) % 2 = 1 := by
  unfold byteAt at hz
  interval_cases i <;>
    simp only [Nat.reducePow, Nat.reduceMul, Nat.reduceAdd, Nat.reduceSub] at hz hv ⊢ <;> omega

/-- When the bytes 0 to `i` are all non-zero, no borrow reaches byte `i`, and the
top bits of the difference and of the complement are not both set there. -/
theorem no_top_bit_of_nonzero (v i : Nat) (hv : v < 2 ^ 64) (hi : i < 8)
    (hnz : ∀ k, k ≤ i → byteAt v k ≠ 0)
    (hx : (v + 2 ^ 64 - 0x0101010101010101) % 2 ^ 64 / 2 ^ (8 * i + 7) % 2 = 1)
    (hy : (2 ^ 64 - 1 - v) / 2 ^ (8 * i + 7) % 2 = 1) : False := by
  have h0 := hnz 0; have h1 := hnz 1; have h2 := hnz 2; have h3 := hnz 3
  have h4 := hnz 4; have h5 := hnz 5; have h6 := hnz 6; have h7 := hnz 7
  unfold byteAt at h0 h1 h2 h3 h4 h5 h6 h7
  clear hnz
  interval_cases i <;>
    simp only [Nat.reducePow, Nat.reduceMul, Nat.reduceAdd, Nat.reduceSub, Nat.reduceLeDiff,
      Nat.zero_le, Nat.le_refl, forall_const, Nat.div_one, not_false_eq_true] at * <;> omega

theorem mask80_testBit (k : Nat) (h : (0x8080808080808080 : Nat).testBit k = true) :
    k < 64 ∧ k % 8 = 7 := by
  have hk : k < 64 := by
    by_contra hge
    have hlt : (0x8080808080808080 : Nat) < 2 ^ k :=
      lt_of_lt_of_le (by norm_num) (Nat.pow_le_pow_right (by norm_num) (Nat.le_of_not_lt hge))
    rw [Nat.testBit_lt_two_pow hlt] at h
    exact Bool.false_ne_true h
  refine ⟨hk, ?_⟩
  interval_cases k <;> first | rfl | exact absurd h (by decide)

/-- The macro `DETECT_NULL` is exact on 64-bit words: its value is non-zero
precisely when some byte of the word is zero. -/
theorem DETECT_NULL_ne_zero_iff (v : Nat) (hv : v < 2 ^ 64) :
    DETECT_NULL v ≠ 0 ↔ ∃ i, i < 8 ∧ byteAt v i = 0 := by
  constructor
  · intro hne
    by_contra hno
    push_neg at hno
    obtain ⟨k, hk⟩ := Nat.ne_zero_implies_bit_true hne
    unfold DETECT_NULL at hk
    rw [Nat.testBit_land, Nat.testBit_land, Bool.and_eq_true, Bool.and_eq_true] at hk
    obtain ⟨⟨hx, hy⟩, hm⟩ := hk
    obtain ⟨hk64, hk8⟩ := mask80_testBit k hm
    have hki : k = 8 * (k / 8) + 7 := by omega
    rw [hki, Nat.testBit_to_div_mod, decide_eq_true_eq] at hx hy
    exact no_top_bit_of_nonzero v (k / 8) hv (by omega)
      (fun j hj => hno j (by omega)) hx hy
  · rintro ⟨i, hi, hz⟩ hzero
    have hbit : (DETECT_NULL v).testBit (8 * i + 7) = true := by
      unfold DETECT_NULL
      rw [Nat.testBit_land, Nat.testBit_land, Bool.and_eq_true, Bool.and_eq_true]
      refine ⟨⟨?_, ?_⟩, ?_⟩
      · rw [Nat.testBit_to_div_mod, decide_eq_true_eq]; exact sub_top_bit_of_zero v i hi hz
      · rw [Nat.testBit_to_div_mod, decide_eq_true_eq]; exact not_top_bit_of_zero v i hv hi hz
      · interval_cases i <;> decide
    rw [hzero, Nat.zero_testBit] at hbit
    exact Bool.false_ne_true hbit

theorem byteAt_mask7F (i : Nat) (hi : i < 8) : byteAt 0x7F7F7F7F7F7F7F7F i = 0x7F := by
  interval_cases i <;> rfl

/-- The macro `DETECT_CHAR` with the mask of eight DEL bytes is non-zero exactly
when some byte of the 64-bit word is DEL. -/
theorem DETECT_CHAR_DEL_iff (w : Nat) (hw : w < 2 ^ 64) :
    DETECT_CHAR w 0x7F7F7F7F7F7F7F7F ≠ 0 ↔ ∃ i, i < 8 ∧ byteAt w i = 0x7F := by
  unfold DETECT_CHAR
  rw [DETECT_NULL_ne_zero_iff _ (Nat.xor_lt_two_pow hw (by norm_num))]
  constructor
  · rintro ⟨i, hi, h⟩
    refine ⟨i, hi, ?_⟩
    rw [byteAt_xor, byteAt_mask7F i hi] at h
    exact Nat.xor_eq_zero.mp h
  · rintro ⟨i, hi, h⟩
    refine ⟨i, hi, ?_⟩
    rw [byteAt_xor, byteAt_mask7F i hi, h]
    exact Nat.xor_eq_zero.mpr rfl

set_option maxRecDepth 100000 in
theorem or_20_range (a : Nat) (ha : a < 128) : 0x20 ≤ (a ||| 0x20) ∧ (a ||| 0x20) ≤ 0x7F := by
  revert a; decide

theorem GENRAND8_range (X : Nat) : 0x20 ≤ GENRAND8 X ∧ GENRAND8 X ≤ 0x7F := by
  unfold GENRAND8
  have h : X &&& 0x7F = X % 2 ^ 7 := Nat.and_pow_two_sub_one_eq_mod X 7
  rw [h]
  exact or_20_range _ (Nat.mod_lt _ (by norm_num))

theorem GENRAND64_lt (X : Nat) : GENRAND64 X < 2 ^ 64 := by
  unfold GENRAND64
  exact Nat.or_lt_two_pow (Nat.and_lt_two_pow _ (by norm_num)) (by norm_num)

theorem byteAt_GENRAND64 (X i : Nat) (hi : i < 8) :
    byteAt (GENRAND64 X) i = GENRAND8 (byteAt X i) := by
  unfold GENRAND64 GENRAND8
  rw [byteAt_or, byteAt_and, byteAt_mask7F i hi]
  have h : byteAt 0x2020202020202020 i = 0x20 := by interval_cases i <;> rfl
  rw [h]

theorem length_store (str : List Nat) (pos : Nat) (bs : List Nat)
    (h : pos + bs.length ≤ str.length) : (store str pos bs).length = str.length := by
  simp only [store, List.length_append, List.length_take, List.length_drop]
  omega

theorem take_store (str : List Nat) (pos : Nat) (bs : List Nat) (h : pos ≤ str.length) :
    (store str pos bs).take pos = str.take pos := by
  unfold store
  rw [List.append_assoc]
  exact List.take_left' (by simp [h])

theorem take_store_add (str : List Nat) (pos : Nat) (bs : List Nat) (h : pos ≤ str.length) :
    (store str pos bs).take (pos + bs.length) = str.take pos ++ bs := by
  unfold store
  exact List.take_left' (by simp [h])

theorem bytes64_printable (X : Nat)
    (hd : DETECT_CHAR (GENRAND64 X) 0x7F7F7F7F7F7F7F7F = 0) :
    ∀ b ∈ bytes64 (GENRAND64 X), 0x20 ≤ b ∧ b ≤ 0x7E := by
  intro b hb
  unfold bytes64 at hb
  rw [List.mem_map] at hb
  obtain ⟨i, hi, rfl⟩ := hb
  rw [List.mem_range] at hi
  have hne : byteAt (GENRAND64 X) i ≠ 0x7F := by
    intro h
    exact (DETECT_CHAR_DEL_iff _ (GENRAND64_lt X)).mpr ⟨i, hi, h⟩ hd
  have hr := GENRAND8_range (byteAt X i)
  rw [← byteAt_GENRAND64 X i hi] at hr
  omega

theorem word_loop_inv (left_first : Bool) (n0 : Nat) (hn0 : n0 ≤ 32) :
    ∀ (rs : List Nat) (size lptr : Nat) (str : List Nat)
      (res : List Nat × Nat × Nat × List Nat),
      word_loop left_first rs size lptr str = some res →
      lptr + size = n0 → str.length = 33 →
      (∀ b ∈ str.take lptr, 0x20 ≤ b ∧ b ≤ 0x7E) →
      res.2.2.1 + res.2.1 = n0 ∧ res.2.1 < 8 ∧ res.2.2.2.length = 33 ∧
        (∀ b ∈ res.2.2.2.take res.2.2.1, 0x20 ≤ b ∧ b ≤ 0x7E) := by
  intro rs size lptr str
  induction rs, size, lptr, str using word_loop.induct left_first with
  | case1 r1 r2 rest size lptr str hsz rand64 w str1 hdet ih =>
    intro res h hsum hlen hgood
    rw [word_loop, if_pos hsz] at h
    simp only [] at h
    rw [if_pos hdet] at h
    have hl : (store str lptr (bytes64 w)).length = 33 := by
      rw [length_store]; exact hlen
      simp [bytes64]; omega
    refine ih res h hsum hl ?_
    rw [take_store _ _ _ (by omega)]
    exact hgood
  | case2 r1 r2 rest size lptr str hsz rand64 w str1 hdet ih =>
    intro res h hsum hlen hgood
    rw [word_loop, if_pos hsz] at h
    simp only [] at h
    rw [if_neg hdet] at h
    have hl : (store str lptr (bytes64 w)).length = 33 := by
      rw [length_store]; exact hlen
      simp [bytes64]; omega
    refine ih res h (by omega) hl ?_
    have h8 : (bytes64 w).length = 8 := by simp [bytes64]
    have := take_store_add str lptr (bytes64 w) (by omega)
    rw [h8] at this
    rw [this]
    intro b hb
    rw [List.mem_append] at hb
    rcases hb with hb | hb
    · exact hgood b hb
    · exact bytes64_printable rand64 (by simpa using hdet) b hb
  | case3 r1 r2 rest size lptr str hsz =>
    intro res h hsum hlen hgood
    rw [word_loop, if_neg hsz] at h
    cases h
    exact ⟨hsum, Nat.lt_of_not_le hsz, hlen, hgood⟩
  | case4 rs size lptr str hrs hsz =>
    intro res h hsum hlen hgood
    rw [word_loop, if_pos hsz] at h
    · cases h
    · exact hrs
  | case5 rs size lptr str hrs hsz =>
    intro res h hsum hlen hgood
    rw [word_loop, if_neg hsz] at h
    · cases h
      exact ⟨hsum, Nat.lt_of_not_le hsz, hlen, hgood⟩
    · exact hrs

theorem byte_loop_inv (n0 : Nat) (hn0 : n0 ≤ 32) :
    ∀ (rs : List Nat) (size cptr : Nat) (str : List Nat) (res : Nat × List Nat),
      byte_loop rs size cptr str = some res →
      cptr + size = n0 → str.length = 33 →
      (∀ b ∈ str.take cptr, 0x20 ≤ b ∧ b ≤ 0x7E) →
      res.1 = n0 ∧ res.2.length = 33 ∧ (∀ b ∈ res.2.take n0, 0x20 ≤ b ∧ b ≤ 0x7E) := by
  intro rs
  induction rs with
  | nil =>
    intro size cptr str res h hsum hlen hgood
    unfold byte_loop at h
    split at h
    · cases h
    · cases h
      have : size = 0 := by omega
      subst this
      have hc : cptr = n0 := by omega
      subst hc
      exact ⟨rfl, hlen, hgood⟩
  | cons r rest ih =>
    intro size cptr str res h hsum hlen hgood
    unfold byte_loop at h
    split at h
    · rename_i hsz
      have hl : (store str cptr [GENRAND8 r]).length = 33 := by
        rw [length_store]; exact hlen
        simp; omega
      simp only [] at h
      split at h
      · refine ih size cptr _ res h hsum hl ?_
        rw [take_store _ _ _ (by omega)]
        exact hgood
      · rename_i hdel
        refine ih (size - 1) (cptr + 1) _ res h (by omega) hl ?_
        have := take_store_add str cptr [GENRAND8 r] (by omega)
        rw [List.length_singleton] at this
        rw [this]
        intro b hb
        rw [List.mem_append, List.mem_singleton] at hb
        rcases hb with hb | hb
        · exact hgood b hb
        · subst hb
          have hr := GENRAND8_range r
          omega
    · cases h
      have : size = 0 := by omega
      subst this
      have hc : cptr = n0 := by omega
      subst hc
      exact ⟨rfl, hlen, hgood⟩

theorem cstr_append_zero (s rest : List Nat) (hs : ∀ b ∈ s, b ≠ 0) :
    cstr (s ++ 0 :: rest) = s := by
  induction s with
  | nil => simp [cstr]
  | cons a t ih =>
    have ha : a ≠ 0 := hs a (List.mem_cons_self a t)
    have ht : ∀ b ∈ t, b ≠ 0 := fun b hb => hs b (List.mem_cons_of_mem a hb)
    have := ih ht
    unfold cstr at this ⊢
    rw [List.cons_append, List.takeWhile_cons_of_pos (by simpa using ha), this]

/-- The array `GenRandString` leaves behind: the first `n` bytes are printable,
none of them DEL, byte `n` is the terminator, with `n` between 1 and 32. -/
theorem GenRandString_shape (left_first : Bool) (rs str out : List Nat)
    (hlen : str.length = 33) (h : GenRandString left_first rs str = some out) :
    ∃ s rest, out = s ++ 0 :: rest ∧ out.length = 33 ∧ 1 ≤ s.length ∧ s.length ≤ 32 ∧
      ∀ b ∈ s, 0x20 ≤ b ∧ b ≤ 0x7E := by
  unfold GenRandString at h
  cases rs with
  | nil => cases h
  | cons r0 rs1 =>
    simp only [] at h
    have hsz : (r0 &&& (MAX_MSG_LEN - 1)) + 1 ≤ 32 ∧ 1 ≤ (r0 &&& (MAX_MSG_LEN - 1)) + 1 := by
      have : r0 &&& (MAX_MSG_LEN - 1) = r0 % 2 ^ 5 := Nat.and_pow_two_sub_one_eq_mod r0 5
      rw [this]
      have := Nat.mod_lt r0 (show 0 < 2 ^ 5 by norm_num)
      omega
    generalize (r0 &&& (MAX_MSG_LEN - 1)) + 1 = n0 at h hsz
    cases hw : word_loop left_first rs1 n0 0 str with
    | none => rw [hw] at h; cases h
    | some r1 =>
      obtain ⟨rs2, size2, lptr, str2⟩ := r1
      rw [hw] at h
      simp only [] at h
      have hwi := word_loop_inv left_first n0 hsz.1 rs1 n0 0 str _ hw (by omega) hlen (by simp)
      simp only [] at hwi
      cases hb : byte_loop rs2 size2 lptr str2 with
      | none => rw [hb] at h; cases h
      | some r2 =>
        obtain ⟨cptr, str3⟩ := r2
        rw [hb] at h
        simp only [Option.some.injEq] at h
        have hbi := byte_loop_inv n0 hsz.1 rs2 size2 lptr str2 _ hb hwi.1 hwi.2.2.1 hwi.2.2.2
        simp only [] at hbi
        obtain ⟨hc, hl3, hg3⟩ := hbi
        subst hc
        refine ⟨str3.take cptr, str3.drop (cptr + 1), ?_, ?_, ?_, ?_, hg3⟩
        · rw [← h]; simp [store]
        · rw [← h, length_store]; exact hl3
          simp; omega
        · rw [List.length_take]; omega
        · rw [List.length_take]; omega

/-- C8: on every sequence of `rand()` values on which `GenRandString` returns
(whichever of the two `rand()` calls of the word expression runs first), the
string left in the 33-byte array has between 1 and 32 bytes before its terminating
NUL (so string and terminator lie inside the array) and each of these bytes is in
0x20..0x7E, hence neither DEL nor NUL; and `DETECT_CHAR(w, 0x7F7F7F7F7F7F7F7F)` is
non-zero exactly when some byte of the 64-bit word `w` is 0x7F. -/
theorem C8_GenRandString_printable (left_first : Bool) (rs str out : List Nat)
    (hlen : str.length = 33) (h : GenRandString left_first rs str = some out) :
    (1 ≤ (cstr out).length ∧ (cstr out).length ≤ 32 ∧ out.length = 33 ∧
      out[(cstr out).length]? = some 0 ∧
      (∀ b ∈ cstr out, 0x20 ≤ b ∧ b ≤ 0x7E)) ∧
    (∀ w, w < 2 ^ 64 →
      (DETECT_CHAR w 0x7F7F7F7F7F7F7F7F ≠ 0 ↔ ∃ i, i < 8 ∧ byteAt w i = 0x7F)) := by
  obtain ⟨s, rest, hout, hl, h1, h32, hg⟩ := GenRandString_shape left_first rs str out hlen h
  have hc : cstr out = s := by
    rw [hout]
    exact cstr_append_zero s rest (fun b hb => by have := hg b hb; omega)
  refine ⟨⟨?_, ?_, hl, ?_, ?_⟩, fun w hw => DETECT_CHAR_DEL_iff w hw⟩
  · rw [hc]; exact h1
  · rw [hc]; exact h32
  · rw [hc, hout, List.getElem?_append_right (le_refl _)]; simp
  · rw [hc]; exact hg

/-- C8 at a concrete run: the first word drawn holds a DEL and is drawn again, as
is the first byte of the tail. -/
theorem C8_GenRandString_printable_witness :
    (List.replicate 33 255).length = 33 ∧
    GenRandString true [9, 0x7F000000, 0, 0x41424344, 0x45464748, 0x7F, 0x41, 0x30]
        (List.replicate 33 255) =
      some ([0x68, 0x67, 0x66, 0x65, 0x64, 0x63, 0x62, 0x61, 0x61, 0x30, 0] ++
        List.replicate 22 255) ∧
    ((1 ≤ (cstr ([0x68, 0x67, 0x66, 0x65, 0x64, 0x63, 0x62, 0x61, 0x61, 0x30, 0] ++
          List.replicate 22 255)).length ∧
      (cstr ([0x68, 0x67, 0x66, 0x65, 0x64, 0x63, 0x62, 0x61, 0x61, 0x30, 0] ++
          List.replicate 22 255)).length ≤ 32 ∧
      ([0x68, 0x67, 0x66, 0x65, 0x64, 0x63, 0x62, 0x61, 0x61, 0x30, 0] ++
          List.replicate 22 255).length = 33 ∧
      ([0x68, 0x67, 0x66, 0x65, 0x64, 0x63, 0x62, 0x61, 0x61, 0x30, 0] ++
          List.replicate 22 255)[(cstr ([0x68, 0x67, 0x66, 0x65, 0x64, 0x63, 0x62, 0x61,
            0x61, 0x30, 0] ++ List.replicate 22 255)).length]? = some 0 ∧
      (∀ b ∈ cstr ([0x68, 0x67, 0x66, 0x65, 0x64, 0x63, 0x62, 0x61, 0x61, 0x30, 0] ++
          List.replicate 22 255), 0x20 ≤ b ∧ b ≤ 0x7E)) ∧
    (∀ w, w < 2 ^ 64 →
      (DETECT_CHAR w 0x7F7F7F7F7F7F7F7F ≠ 0 ↔ ∃ i, i < 8 ∧ byteAt w i = 0x7F))) :=
  ⟨by decide, by decide,
    C8_GenRandString_printable true [9, 0x7F000000, 0, 0x41424344, 0x45464748, 0x7F, 0x41, 0x30]
      (List.replicate 33 255) _ (by decide) (by decide)⟩

end Bench

end Kecho

/-! ## Theorems about echo_server.c -/

namespace Kecho

namespace Server

/-! ### Auxiliary lemmas -/

theorem TRACE_eq (op : Ops) (s : runtime_state) : TRACE op s = states_add op s := by
  cases op <;> rfl

/-- From `INT_MIN` on and below `INT_MAX` the wrapping addition of 1 is the
addition of 1. -/
theorem atomic_add_one_eq (v : Int) (hlo : INT_MIN ≤ v) (hhi : v < INT_MAX) :
    atomic_add 1 v = v + 1 := by
  unfold INT_MIN at hlo
  unfold INT_MAX at hhi
  unfold atomic_add wrap32
  omega

theorem free_work_from_log (l : List kecho) (g : World) :
    (free_work_from l g).log = g.log ++ l.flatMap (fun tar =>
      [Event.kernel_sock_shutdown tar.sock SHUT_RDWR, Event.flush_work tar.addr,
        Event.sock_release tar.sock, Event.kfree tar.addr]) := by
  induction l generalizing g with
  | nil => simp [free_work_from]
  | cons tar rest ih =>
    rw [free_work_from, ih]
    simp [World.emit]

theorem free_work_from_frame (l : List kecho) (g : World) :
    (free_work_from l g).daemon = g.daemon ∧ (free_work_from l g).states = g.states ∧
      (free_work_from l g).kecho_wq = g.kecho_wq := by
  induction l generalizing g with
  | nil => simp [free_work_from]
  | cons tar rest ih =>
    rw [free_work_from]
    obtain ⟨h1, h2, h3⟩ := ih ((((g.emit (.kernel_sock_shutdown tar.sock SHUT_RDWR)).emit
      (.flush_work tar.addr)).emit (.sock_release tar.sock)).emit (.kfree tar.addr))
    exact ⟨h1, h2, h3⟩

/-- A property of the loop's result that holds at the start, and is carried from
the start of a pass to its end, holds for the loop. -/
theorem echo_loop_induction (sock : Nat) (env : List Cycle)
    (R : List Nat → World → Prop)
    (hpass : ∀ c ∈ env, ∀ buf g, R buf g →
      R (echo_pass sock c buf g).2.1 (echo_pass sock c buf g).2.2) :
    ∀ buf g, R buf g → R (echo_loop sock env buf g).2.1 (echo_loop sock env buf g).2.2 := by
  induction env with
  | nil => intro buf g h; exact h
  | cons c cs ih =>
    intro buf g h
    have hp := hpass c (List.mem_cons_self c cs) buf g h
    rw [echo_loop]
    rcases hq : echo_pass sock c buf g with ⟨b, buf1, g1⟩
    rw [hq] at hp
    cases b
    · exact ih (fun c1 hc1 => hpass c1 (List.mem_cons_of_mem c hc1)) buf1 g1 hp
    · exact hp

/-- What a pass leaves alone: the registry, the work queue and the counters it
does not name. -/
theorem echo_pass_frame (sock : Nat) (c : Cycle) (buf : List Nat) (g : World) :
    (echo_pass sock c buf g).2.2.daemon.worker = g.daemon.worker ∧
    (echo_pass sock c buf g).2.2.kecho_wq = g.kecho_wq ∧
    (echo_pass sock c buf g).2.2.states.shutdown = g.states.shutdown ∧
    (echo_pass sock c buf g).2.2.states.kzalloc_err = g.states.kzalloc_err ∧
    (echo_pass sock c buf g).2.2.states.accept_err = g.states.accept_err ∧
    (echo_pass sock c buf g).2.2.states.work_err = g.states.work_err := by
  unfold echo_pass get_request send_request World.stop_if
  cases c.daemon_stops <;> cases g.daemon.is_stopped <;>
    simp only [Bool.false_eq_true, if_false, if_true] <;>
    (try split_ifs) <;> simp [World.emit, World.trace, TRACE_eq, states_add]

theorem echo_pass_log (sock : Nat) (c : Cycle) (buf : List Nat) (g : World) :
    ∃ calls, (echo_pass sock c buf g).2.2.log = g.log ++ calls := by
  unfold echo_pass get_request send_request World.stop_if
  cases c.daemon_stops <;> cases g.daemon.is_stopped <;>
    simp only [Bool.false_eq_true, if_false, if_true] <;>
    (try split_ifs) <;> simp [World.emit, World.trace]

theorem echo_loop_frame (sock : Nat) (env : List Cycle) (buf : List Nat) (g : World) :
    (echo_loop sock env buf g).2.2.daemon.worker = g.daemon.worker ∧
    (echo_loop sock env buf g).2.2.kecho_wq = g.kecho_wq ∧
    (echo_loop sock env buf g).2.2.states.shutdown = g.states.shutdown ∧
    (echo_loop sock env buf g).2.2.states.kzalloc_err = g.states.kzalloc_err ∧
    (echo_loop sock env buf g).2.2.states.accept_err = g.states.accept_err ∧
    (echo_loop sock env buf g).2.2.states.work_err = g.states.work_err := by
  refine echo_loop_induction sock env
    (fun _ g1 => g1.daemon.worker = g.daemon.worker ∧ g1.kecho_wq = g.kecho_wq ∧
      g1.states.shutdown = g.states.shutdown ∧ g1.states.kzalloc_err = g.states.kzalloc_err ∧
      g1.states.accept_err = g.states.accept_err ∧ g1.states.work_err = g.states.work_err)
    ?_ buf g ⟨rfl, rfl, rfl, rfl, rfl, rfl⟩
  intro c _ buf1 g1 ⟨h1, h2, h3, h4, h5, h6⟩
  obtain ⟨f1, f2, f3, f4, f5, f6⟩ := echo_pass_frame sock c buf1 g1
  exact ⟨f1.trans h1, f2.trans h2, f3.trans h3, f4.trans h4, f5.trans h5, f6.trans h6⟩

theorem echo_loop_log (sock : Nat) (env : List Cycle) (buf : List Nat) (g : World) :
    ∃ calls, (echo_loop sock env buf g).2.2.log = g.log ++ calls := by
  refine echo_loop_induction sock env (fun _ g1 => ∃ calls, g1.log = g.log ++ calls)
    ?_ buf g ⟨[], by simp⟩
  intro c _ buf1 g1 ⟨calls, h⟩
  obtain ⟨calls1, h1⟩ := echo_pass_log sock c buf1 g1
  exact ⟨calls ++ calls1, by rw [h1, h, List.append_assoc]⟩

theorem rekzalloc_frame (kfail : Nat) (g : World) :
    (rekzalloc kfail g).daemon = g.daemon ∧ (rekzalloc kfail g).kecho_wq = g.kecho_wq ∧
    (rekzalloc kfail g).states.shutdown = g.states.shutdown ∧
    (rekzalloc kfail g).states.get_err = g.states.get_err ∧
    (rekzalloc kfail g).states.send_err = g.states.send_err ∧
    (rekzalloc kfail g).states.recvmsg = g.states.recvmsg ∧
    (rekzalloc kfail g).states.sendmsg = g.states.sendmsg ∧
    (rekzalloc kfail g).states.accept_err = g.states.accept_err ∧
    (rekzalloc kfail g).states.work_err = g.states.work_err ∧
    (rekzalloc kfail g).log = g.log ++ List.replicate kfail (Event.kzalloc BUF_SIZE false) := by
  induction kfail generalizing g with
  | zero => exact ⟨rfl, rfl, rfl, rfl, rfl, rfl, rfl, rfl, rfl, by simp [rekzalloc]⟩
  | succ k ih =>
    rw [rekzalloc]
    obtain ⟨h1, h2, h3, h4, h5, h6, h7, h8, h9, h10⟩ :=
      ih ((g.emit (.kzalloc BUF_SIZE false)).trace .kzalloc_err)
    refine ⟨h1, h2, h3, h4, h5, h6, h7, h8, h9, ?_⟩
    rw [h10]; simp [World.emit, World.trace, List.replicate_succ]

/-- The ways a pass leaves the loop are those of the source: the flag is seen set,
the receive returns a value `≤ 0`, or the send returns a negative value. -/
theorem echo_pass_leaves_iff (sock : Nat) (c : Cycle) (buf : List Nat) (g : World) :
    (echo_pass sock c buf g).1 = true ↔
      ((g.stop_if c.daemon_stops).daemon.is_stopped = true ∨
        (kernel_recvmsg c.recv buf).1 ≤ 0 ∨ c.send < 0) := by
  unfold echo_pass get_request send_request
  simp only []
  split_ifs with h1 h2 h3 h4
  · simp [h1]
  · simp [h2]
  · simp [h2]
  · simp [h4]
  · simp [h1, h2, h4]

theorem strlen_of_zero_at : ∀ (buf : List Nat) (i : Nat), buf[i]? = some 0 →
    ∃ n, strlen buf = some n ∧ n ≤ i := by
  intro buf
  induction buf with
  | nil => intro i h; simp at h
  | cons b bs ih =>
    intro i h
    by_cases hb : b = 0
    · exact ⟨0, by simp [strlen, hb], Nat.zero_le _⟩
    · cases i with
      | zero => simp at h; exact absurd h hb
      | succ j =>
        rw [List.getElem?_cons_succ] at h
        obtain ⟨n, hn, hle⟩ := ih j h
        exact ⟨n + 1, by simp [strlen, hb, hn], Nat.succ_le_succ hle⟩

theorem BUF_SIZE_pos : 0 < BUF_SIZE := by decide

theorem stop_if_log (g : World) (b : Bool) : (g.stop_if b).log = g.log := by
  cases b <;> rfl

theorem terminated_recv (r : Recv) (buf : List Nat)
    (hr : ∀ bytes, r = .data bytes → bytes.length ≤ BUF_SIZE - 1)
    (hlen : buf.length = BUF_SIZE) (hz : buf[BUF_SIZE - 1]? = some 0) :
    (kernel_recvmsg r buf).2.length = BUF_SIZE ∧
      (kernel_recvmsg r buf).2[BUF_SIZE - 1]? = some 0 := by
  have hpos := BUF_SIZE_pos
  cases r with
  | error e => exact ⟨hlen, hz⟩
  | data bytes =>
    have hb := hr bytes rfl
    simp only [kernel_recvmsg]
    constructor
    · rw [List.length_append, List.length_drop]; omega
    · rw [List.getElem?_append_right (by omega), List.getElem?_drop]
      have : bytes.length + (BUF_SIZE - 1 - bytes.length) = BUF_SIZE - 1 := by omega
      rw [this]; exact hz

theorem terminated_memset (buf : List Nat) (n : Nat)
    (hlen : buf.length = BUF_SIZE) (hz : buf[BUF_SIZE - 1]? = some 0) :
    (memset buf n).length = BUF_SIZE ∧ (memset buf n)[BUF_SIZE - 1]? = some 0 := by
  have hpos := BUF_SIZE_pos
  unfold memset
  constructor
  · rw [List.length_append, List.length_map, List.length_take, List.length_drop]; omega
  · by_cases hn : n ≤ BUF_SIZE - 1
    · have hl : (List.map (fun _ => 0) (List.take n buf)).length = n := by
        rw [List.length_map, List.length_take]; omega
      rw [List.getElem?_append_right (by rw [hl]; exact hn), List.getElem?_drop, hl]
      have : n + (BUF_SIZE - 1 - n) = BUF_SIZE - 1 := by omega
      rw [this]; exact hz
    · have hl : (List.map (fun _ => 0) (List.take n buf)).length = BUF_SIZE := by
        rw [List.length_map, List.length_take]; omega
      rw [List.getElem?_append_left (by rw [hl]; omega), List.getElem?_map,
        List.getElem?_take_of_lt (by omega), hz]
      rfl

/-- A pass keeps the buffer `BUF_SIZE` bytes long with a zero last byte, and every
call it logs is made on such a buffer. -/
theorem echo_pass_terminated (sock : Nat) (c : Cycle) (buf : List Nat) (g : World)
    (hr : ∀ bytes, c.recv = .data bytes → bytes.length ≤ BUF_SIZE - 1)
    (hlen : buf.length = BUF_SIZE) (hz : buf[BUF_SIZE - 1]? = some 0) :
    ((echo_pass sock c buf g).2.1.length = BUF_SIZE ∧
      (echo_pass sock c buf g).2.1[BUF_SIZE - 1]? = some 0) ∧
    ∃ calls, (echo_pass sock c buf g).2.2.log = g.log ++ calls ∧
      ∀ e ∈ calls, e.terminated := by
  obtain ⟨r1, r2⟩ := terminated_recv c.recv buf hr hlen hz
  obtain ⟨m1, m2⟩ := terminated_memset (kernel_recvmsg c.recv buf).2 c.send.toNat r1 r2
  obtain ⟨n, hn, hle⟩ := strlen_of_zero_at _ _ r2
  have hsend : (Event.kernel_sendmsg sock
      (Option.map (fun iov_len => List.take iov_len (kernel_recvmsg c.recv buf).2)
        (strlen (kernel_recvmsg c.recv buf).2))
      (kernel_recvmsg c.recv buf).1.toNat c.send).terminated := by
    rw [hn]
    refine ⟨_, rfl, ?_⟩
    rw [List.length_take]; omega
  have hrecv : (Event.kernel_recvmsg sock (BUF_SIZE - 1) (kernel_recvmsg c.recv buf).2
      (kernel_recvmsg c.recv buf).1).terminated := ⟨r1, r2⟩
  have hmem : (Event.memset c.send.toNat
      (memset (kernel_recvmsg c.recv buf).2 c.send.toNat)).terminated := ⟨m1, m2⟩
  unfold echo_pass get_request send_request
  simp only []
  split_ifs
  · exact ⟨⟨hlen, hz⟩, [], by simp [stop_if_log], by simp⟩
  · refine ⟨⟨r1, r2⟩, [Event.kernel_recvmsg sock (BUF_SIZE - 1) (kernel_recvmsg c.recv buf).2
      (kernel_recvmsg c.recv buf).1], ?_, ?_⟩
    · simp [World.emit, World.trace, stop_if_log]
    · simpa using hrecv
  · refine ⟨⟨r1, r2⟩, [Event.kernel_recvmsg sock (BUF_SIZE - 1) (kernel_recvmsg c.recv buf).2
      (kernel_recvmsg c.recv buf).1], ?_, ?_⟩
    · simp [World.emit, World.trace, stop_if_log]
    · simpa using hrecv
  · refine ⟨⟨r1, r2⟩, [Event.kernel_recvmsg sock (BUF_SIZE - 1) (kernel_recvmsg c.recv buf).2
      (kernel_recvmsg c.recv buf).1, Event.kernel_sendmsg sock
        (Option.map (fun iov_len => List.take iov_len (kernel_recvmsg c.recv buf).2)
          (strlen (kernel_recvmsg c.recv buf).2))
        (kernel_recvmsg c.recv buf).1.toNat c.send], ?_, ?_⟩
    · simp [World.emit, World.trace, stop_if_log]
    · intro e he
      simp only [List.mem_cons, List.mem_singleton, List.not_mem_nil, or_false] at he
      rcases he with rfl | rfl
      · exact hrecv
      · exact hsend
  · refine ⟨⟨m1, m2⟩, [Event.kernel_recvmsg sock (BUF_SIZE - 1) (kernel_recvmsg c.recv buf).2
      (kernel_recvmsg c.recv buf).1, Event.kernel_sendmsg sock
        (Option.map (fun iov_len => List.take iov_len (kernel_recvmsg c.recv buf).2)
          (strlen (kernel_recvmsg c.recv buf).2))
        (kernel_recvmsg c.recv buf).1.toNat c.send,
      Event.memset c.send.toNat (memset (kernel_recvmsg c.recv buf).2 c.send.toNat)], ?_, ?_⟩
    · simp [World.emit, World.trace, stop_if_log]
    · intro e he
      simp only [List.mem_cons, List.mem_singleton, List.not_mem_nil, or_false] at he
      rcases he with rfl | rfl | rfl
      · exact hrecv
      · exact hsend
      · exact hmem

theorem terminated_fresh :
    (List.replicate BUF_SIZE 0).length = BUF_SIZE ∧
      (List.replicate BUF_SIZE (0 : Nat))[BUF_SIZE - 1]? = some 0 := by
  have hpos := BUF_SIZE_pos
  refine ⟨List.length_replicate _ _, ?_⟩
  rw [List.getElem?_replicate, if_pos (by omega)]

theorem stop_if_false (g : World) : g.stop_if false = g := rfl

/-- A pass whose receive returns `r ≤ 0`: the loop is left after that one call. -/
theorem echo_pass_recv_end (sock : Nat) (c : Cycle) (buf : List Nat) (g : World)
    (hflag : g.daemon.is_stopped = false) (hstop : c.daemon_stops = false)
    (hr : (kernel_recvmsg c.recv buf).1 ≤ 0) :
    echo_pass sock c buf g =
      (true, (kernel_recvmsg c.recv buf).2,
        if (kernel_recvmsg c.recv buf).1 ≠ 0 then
          (((g.emit (.kernel_recvmsg sock (BUF_SIZE - 1) (kernel_recvmsg c.recv buf).2
            (kernel_recvmsg c.recv buf).1)).trace .recvmsg).trace .get_err)
        else
          ((g.emit (.kernel_recvmsg sock (BUF_SIZE - 1) (kernel_recvmsg c.recv buf).2
            (kernel_recvmsg c.recv buf).1)).trace .recvmsg)) := by
  unfold echo_pass get_request
  simp only [hstop, stop_if_false, hflag, Bool.false_eq_true, if_false, hr, if_true]

/-- A pass whose receive stores at least one byte and whose send does not fail:
one `recvmsg` and one `sendmsg` are counted and the next pass follows. -/
theorem echo_pass_round (sock : Nat) (c : Cycle) (buf : List Nat) (g : World)
    (hflag : g.daemon.is_stopped = false) (hstop : c.daemon_stops = false)
    (hr : 0 < (kernel_recvmsg c.recv buf).1) (hs : 0 ≤ c.send) :
    (echo_pass sock c buf g).1 = false ∧
    (echo_pass sock c buf g).2.2.daemon = g.daemon ∧
    (echo_pass sock c buf g).2.2.states =
      { g.states with recvmsg := atomic_add 1 g.states.recvmsg,
                      sendmsg := atomic_add 1 g.states.sendmsg } := by
  unfold echo_pass get_request send_request
  simp only [hstop, stop_if_false, hflag, Bool.false_eq_true, if_false, not_le.mpr hr,
    not_lt.mpr hs]
  simp [World.emit, World.trace, TRACE_eq, states_add]

theorem iterate_atomic_add (n : Nat) : ∀ (x : Int), INT_MIN ≤ x →
    x + n ≤ INT_MAX → (atomic_add 1)^[n] x = x + n := by
  induction n with
  | zero => intro x _ _; simp
  | succ k ih =>
    intro x hlo hhi
    have hlo1 : INT_MIN ≤ x + 1 := by unfold INT_MIN at hlo ⊢; omega
    have hhi0 : x < INT_MAX := by push_cast at hhi; unfold INT_MAX at hhi ⊢; omega
    have hhi1 : x + 1 + k ≤ INT_MAX := by push_cast at hhi; unfold INT_MAX at hhi ⊢; omega
    rw [Function.iterate_succ_apply, atomic_add_one_eq x hlo hhi0, ih (x + 1) hlo1 hhi1]
    push_cast; ring

theorem echo_loop_recv_end (sock : Nat) (c : Cycle) (cs : List Cycle) (buf : List Nat)
    (g : World) (hflag : g.daemon.is_stopped = false) (hstop : c.daemon_stops = false)
    (hr : (kernel_recvmsg c.recv buf).1 ≤ 0) :
    echo_loop sock (c :: cs) buf g = echo_pass sock c buf g := by
  rw [echo_loop, echo_pass_recv_end sock c buf g hflag hstop hr]

/-- After `rounds`, a list of passes each of which receives at least one byte and
sends without error, the loop is at its next pass with `recvmsg` and `sendmsg`
incremented once per pass and nothing else in the counters changed. -/
theorem echo_loop_rounds (sock : Nat) (rounds tail : List Cycle) :
    ∀ (buf : List Nat) (g : World), g.daemon.is_stopped = false →
      (∀ c ∈ rounds, c.daemon_stops = false ∧
        (∃ bytes, bytes ≠ [] ∧ c.recv = Recv.data bytes) ∧ 0 ≤ c.send) →
      ∃ buf1 g1, echo_loop sock (rounds ++ tail) buf g = echo_loop sock tail buf1 g1 ∧
        g1.daemon = g.daemon ∧
        g1.states = { g.states with
          recvmsg := (atomic_add 1)^[rounds.length] g.states.recvmsg,
          sendmsg := (atomic_add 1)^[rounds.length] g.states.sendmsg } := by
  induction rounds with
  | nil => intro buf g _ _; exact ⟨buf, g, rfl, rfl, rfl⟩
  | cons c cs ih =>
    intro buf g hflag hall
    obtain ⟨hstop, ⟨bytes, hne, hrecv⟩, hsend⟩ := hall c (List.mem_cons_self c cs)
    have hpos : 0 < (kernel_recvmsg c.recv buf).1 := by
      rw [hrecv]
      simp only [kernel_recvmsg]
      exact Int.ofNat_lt.mpr (List.length_pos.mpr hne)
    obtain ⟨p1, p2, p3⟩ := echo_pass_round sock c buf g hflag hstop hpos hsend
    rcases hq : echo_pass sock c buf g with ⟨b, buf1, g1⟩
    rw [hq] at p1 p2 p3
    simp only [] at p1 p2 p3
    subst p1
    obtain ⟨buf2, g2, h1, h2, h3⟩ := ih buf1 g1 (by rw [p2]; exact hflag)
      (fun c1 hc1 => hall c1 (List.mem_cons_of_mem c hc1))
    refine ⟨buf2, g2, ?_, h2.trans p2, ?_⟩
    · rw [List.cons_append, echo_loop, hq]; exact h1
    · rw [h3, p3]
      simp [Function.iterate_succ_apply]

theorem strlen_append_zero (M rest : List Nat) (hnz : ∀ b ∈ M, b ≠ 0) :
    strlen (M ++ 0 :: rest) = some M.length := by
  induction M with
  | nil => simp [strlen]
  | cons a t ih =>
    have ha : a ≠ 0 := hnz a (List.mem_cons_self a t)
    have := ih (fun b hb => hnz b (List.mem_cons_of_mem a hb))
    simp [strlen, ha, this]

/-- What the worker does get right: when the bytes received hold no zero byte and
the buffer was all zero before the receive, the one `kernel_sendmsg` of the pass
is given exactly the bytes received, and their number as `size`. -/
theorem echo_pass_echoes_without_zero_byte (sock : Nat) (c : Cycle) (g : World)
    (M : List Nat) (hflag : g.daemon.is_stopped = false) (hstop : c.daemon_stops = false)
    (hrecv : c.recv = Recv.data M) (hM : M ≠ []) (hlen : M.length ≤ BUF_SIZE - 1)
    (hnz : ∀ b ∈ M, b ≠ 0) (hs : 0 ≤ c.send) :
    (echo_pass sock c (List.replicate BUF_SIZE 0) g).2.2.log =
      g.log ++ [Event.kernel_recvmsg sock (BUF_SIZE - 1)
          (M ++ List.replicate (BUF_SIZE - M.length) 0) M.length,
        Event.kernel_sendmsg sock (some M) M.length c.send,
        Event.memset c.send.toNat
          (memset (M ++ List.replicate (BUF_SIZE - M.length) 0) c.send.toNat)] := by
  have hpos := BUF_SIZE_pos
  have hk : kernel_recvmsg c.recv (List.replicate BUF_SIZE 0) =
      ((M.length : Int), M ++ List.replicate (BUF_SIZE - M.length) 0) := by
    rw [hrecv]; simp [kernel_recvmsg]
  have hrep : List.replicate (BUF_SIZE - M.length) (0 : Nat) =
      0 :: List.replicate (BUF_SIZE - M.length - 1) 0 := by
    have : BUF_SIZE - M.length = (BUF_SIZE - M.length - 1) + 1 := by omega
    rw [this, List.replicate_succ]; simp
  have hstr : strlen (M ++ List.replicate (BUF_SIZE - M.length) 0) = some M.length := by
    rw [hrep]; exact strlen_append_zero M _ hnz
  have hlenpos : ¬ ((M.length : Int) ≤ 0) := by
    have := List.length_pos.mpr hM
    omega
  unfold echo_pass get_request send_request
  simp only [hstop, stop_if_false, hflag, Bool.false_eq_true, if_false, hk, hlenpos,
    not_lt.mpr hs, hstr]
  simp [World.emit, World.trace]

/-- What the worker does get right: when the buffer was all zero before the
receive and the send returns the number of bytes received, the `memset` leaves
the buffer all zero again. -/
theorem echo_pass_clears_after_full_send (sock : Nat) (c : Cycle) (g : World)
    (M : List Nat) (hflag : g.daemon.is_stopped = false) (hstop : c.daemon_stops = false)
    (hrecv : c.recv = Recv.data M) (hM : M ≠ []) (hlen : M.length ≤ BUF_SIZE - 1)
    (hs : c.send = M.length) :
    (echo_pass sock c (List.replicate BUF_SIZE 0) g).1 = false ∧
    (echo_pass sock c (List.replicate BUF_SIZE 0) g).2.1 = List.replicate BUF_SIZE 0 := by
  have hpos := BUF_SIZE_pos
  have hk : kernel_recvmsg c.recv (List.replicate BUF_SIZE 0) =
      ((M.length : Int), M ++ List.replicate (BUF_SIZE - M.length) 0) := by
    rw [hrecv]; simp [kernel_recvmsg]
  have hlenpos : ¬ ((M.length : Int) ≤ 0) := by
    have := List.length_pos.mpr hM
    omega
  have hsend : ¬ (c.send < 0) := by rw [hs]; omega
  have hmem : memset (M ++ List.replicate (BUF_SIZE - M.length) 0) M.length =
      List.replicate BUF_SIZE 0 := by
    unfold memset
    rw [List.take_left, List.drop_left]
    have hmap : List.map (fun _ => 0) M = List.replicate M.length (0 : Nat) := by
      rw [List.eq_replicate_iff]
      exact ⟨List.length_map _ _, fun b hb => by
        obtain ⟨_, _, rfl⟩ := List.mem_map.mp hb; rfl⟩
    rw [hmap, List.append_replicate_replicate]
    congr 1
    omega
  unfold echo_pass get_request send_request
  simp only [hstop, stop_if_false, hflag, Bool.false_eq_true, if_false, hk, hlenpos, hsend]
  rw [hs]
  simp only [Int.toNat_ofNat]
  exact ⟨trivial, hmem⟩

/-! ### The claims -/

/-- C1 fails on the code for a message with a zero byte: the three bytes 0x41
0x00 0x42 arrive in one receive (which returns 3), and `send_request` hands
`kernel_sendmsg` the one byte 0x41, `strlen(buf)` being 1, together with
`size` 3. -/
theorem C1_send_cut_at_zero_byte :
    (kernel_recvmsg (.data [0x41, 0x00, 0x42]) (List.replicate BUF_SIZE 0)).1 = 3 ∧
    (kernel_recvmsg (.data [0x41, 0x00, 0x42]) (List.replicate BUF_SIZE 0)).2.take 3 =
      [0x41, 0x00, 0x42] ∧
    (echo_server_worker ⟨1, 7⟩ 0 [⟨false, .data [0x41, 0x00, 0x42], 1⟩]
        sample_world).world.log[2]? =
      some (Event.kernel_sendmsg 7 (some [0x41]) 3 1) := by
  decide

/-- C2, as the code has it: after the shutdown sequence the flag is set, the
counters have been reported, and every work item of the registry, in list order,
has had its transport shut down in both directions, its worker waited for
(`flush_work`), its transport released and its memory freed; these are all the
calls the sequence makes. The list `daemon.worker` itself is left as it was: no
entry is unlinked, so its length does not change. -/
theorem C2_shutdown_sequence_drains (g : World) :
    (shutdown_sequence g).daemon.is_stopped = true ∧
    (shutdown_sequence g).log = g.log ++ [Event.printk g.states] ++
      g.daemon.worker.flatMap (fun tar =>
        [Event.kernel_sock_shutdown tar.sock SHUT_RDWR, Event.flush_work tar.addr,
          Event.sock_release tar.sock, Event.kfree tar.addr]) ∧
    (shutdown_sequence g).daemon.worker = g.daemon.worker ∧
    (shutdown_sequence g).daemon.worker.length = g.daemon.worker.length := by
  unfold shutdown_sequence free_work
  obtain ⟨h1, _, _⟩ := free_work_from_frame
    (do_analysis { g with daemon := { g.daemon with is_stopped := true } }).daemon.worker
    (do_analysis { g with daemon := { g.daemon with is_stopped := true } })
  refine ⟨?_, ?_, ?_, ?_⟩
  · rw [h1]; rfl
  · rw [free_work_from_log]; rfl
  · rw [h1]; rfl
  · rw [h1]; rfl

/-- C2 as stated fails: with one work item in the registry when the accept loop
is left, the registry still has one entry after the shutdown sequence. -/
theorem C2_registry_not_emptied :
    echo_server_daemon
        [⟨false, 0, 7, false, some 1⟩, ⟨false, -4, 0, true, none⟩]
        ⟨⟨false, []⟩, ⟨0, 0, 0, 0, 0, 0, 0, 0⟩, [], []⟩ =
      (true,
        ⟨⟨true, [⟨1, 7⟩]⟩, ⟨0, 0, 0, 0, 0, 0, 0, 0⟩, [1],
          [Event.kernel_accept 0, Event.kmalloc (some 1), Event.queue_work 1,
            Event.kernel_accept (-4), Event.printk ⟨0, 0, 0, 0, 0, 0, 0, 0⟩,
            Event.kernel_sock_shutdown 7 2, Event.flush_work 1, Event.sock_release 7,
            Event.kfree 1]⟩) ∧
    (echo_server_daemon
        [⟨false, 0, 7, false, some 1⟩, ⟨false, -4, 0, true, none⟩]
        ⟨⟨false, []⟩, ⟨0, 0, 0, 0, 0, 0, 0, 0⟩, [], []⟩).2.daemon.worker.length ≠ 0 := by
  decide

/-- C3, as the code has it: a worker whose `kzalloc` succeeds at once, that never
sees the stopping flag set, completes `R` round trips (each receive stores at
least one byte, each send returns a non-negative count) and then receives 0
because the peer has closed, returns having incremented `recvmsg` `R + 1` times
(the receive that reports the close is counted too), `sendmsg` `R` times and
`shutdown` once; below `INT_MAX` these are increases by exactly `R + 1`, `R`
and 1. -/
theorem C3_counters (w : kecho) (rounds : List Cycle) (s : Int) (g : World)
    (hflag : g.daemon.is_stopped = false)
    (hrounds : ∀ c ∈ rounds, c.daemon_stops = false ∧
      (∃ bytes, bytes ≠ [] ∧ c.recv = Recv.data bytes) ∧ 0 ≤ c.send) :
    (echo_server_worker w 0 (rounds ++ [⟨false, .data [], s⟩]) g).returned = true ∧
    (echo_server_worker w 0 (rounds ++ [⟨false, .data [], s⟩]) g).world.states =
      { g.states with
        recvmsg := (atomic_add 1)^[rounds.length + 1] g.states.recvmsg,
        sendmsg := (atomic_add 1)^[rounds.length] g.states.sendmsg,
        shutdown := atomic_add 1 g.states.shutdown } ∧
    (INT_MIN ≤ g.states.recvmsg → g.states.recvmsg + (rounds.length + 1) ≤ INT_MAX →
      (echo_server_worker w 0 (rounds ++ [⟨false, .data [], s⟩]) g).world.states.recvmsg =
        g.states.recvmsg + (rounds.length + 1)) ∧
    (INT_MIN ≤ g.states.sendmsg → g.states.sendmsg + rounds.length ≤ INT_MAX →
      (echo_server_worker w 0 (rounds ++ [⟨false, .data [], s⟩]) g).world.states.sendmsg =
        g.states.sendmsg + rounds.length) ∧
    (INT_MIN ≤ g.states.shutdown → g.states.shutdown < INT_MAX →
      (echo_server_worker w 0 (rounds ++ [⟨false, .data [], s⟩]) g).world.states.shutdown =
        g.states.shutdown + 1) := by
  obtain ⟨buf1, g1, h1, h2, h3⟩ := echo_loop_rounds w.sock rounds [⟨false, .data [], s⟩]
    (List.replicate BUF_SIZE 0) (g.emit (.kzalloc BUF_SIZE true)) hflag hrounds
  have hflag1 : g1.daemon.is_stopped = false := by rw [h2]; exact hflag
  have hr0 : (kernel_recvmsg (Recv.data []) buf1) = (0, buf1) := by
    simp [kernel_recvmsg]
  have hl := echo_loop_recv_end w.sock ⟨false, .data [], s⟩ [] buf1 g1 hflag1 rfl
    (by rw [hr0])
  have hp := echo_pass_recv_end w.sock ⟨false, .data [], s⟩ buf1 g1 hflag1 rfl (by rw [hr0])
  simp only [hr0, ne_eq, not_true_eq_false, if_false] at hp
  have hst : (echo_server_worker w 0 (rounds ++ [⟨false, .data [], s⟩]) g).world.states =
      { g.states with
        recvmsg := (atomic_add 1)^[rounds.length + 1] g.states.recvmsg,
        sendmsg := (atomic_add 1)^[rounds.length] g.states.sendmsg,
        shutdown := atomic_add 1 g.states.shutdown } := by
    simp only [echo_server_worker, rekzalloc, h1, hl, hp]
    simp [World.emit, World.trace, TRACE_eq, states_add, h3,
      Function.iterate_succ_apply']
  refine ⟨?_, hst, ?_, ?_, ?_⟩
  · simp only [echo_server_worker, rekzalloc, h1, hl, hp]
  · intro hlo hhi
    rw [hst]
    have := iterate_atomic_add (rounds.length + 1) g.states.recvmsg hlo
      (by push_cast; exact hhi)
    simpa using this
  · intro hlo hhi
    rw [hst]
    exact iterate_atomic_add rounds.length g.states.sendmsg hlo hhi
  · intro hlo hhi
    rw [hst]
    exact atomic_add_one_eq g.states.shutdown hlo hhi

/-- C3 at a concrete run of two round trips. -/
theorem C3_counters_witness :
    (⟨⟨false, []⟩, ⟨0, 0, 0, 10, 10, 3, 0, 0⟩, [], []⟩ : World).daemon.is_stopped = false ∧
    (∀ c ∈ [(⟨false, .data [0x68, 0x69], 2⟩ : Cycle), ⟨false, .data [0x21], 1⟩],
      c.daemon_stops = false ∧
        (∃ bytes, bytes ≠ [] ∧ c.recv = Recv.data bytes) ∧ 0 ≤ c.send) ∧
    (echo_server_worker ⟨1, 7⟩ 0
      ([⟨false, .data [0x68, 0x69], 2⟩, ⟨false, .data [0x21], 1⟩] ++
        [⟨false, .data [], 0⟩])
      ⟨⟨false, []⟩, ⟨0, 0, 0, 10, 10, 3, 0, 0⟩, [], []⟩).world.states =
      ⟨0, 0, 0, 13, 12, 4, 0, 0⟩ := by
  have hh : ∀ c ∈ [(⟨false, .data [0x68, 0x69], 2⟩ : Cycle), ⟨false, .data [0x21], 1⟩],
      c.daemon_stops = false ∧
        (∃ bytes, bytes ≠ [] ∧ c.recv = Recv.data bytes) ∧ 0 ≤ c.send := by
    intro c hc
    simp only [List.mem_cons, List.mem_singleton, List.not_mem_nil, or_false] at hc
    rcases hc with rfl | rfl
    · exact ⟨rfl, ⟨_, by simp, rfl⟩, by decide⟩
    · exact ⟨rfl, ⟨_, by simp, rfl⟩, by decide⟩
  refine ⟨rfl, hh, ?_⟩
  rw [(C3_counters ⟨1, 7⟩ _ 0 ⟨⟨false, []⟩, ⟨0, 0, 0, 10, 10, 3, 0, 0⟩, [], []⟩ rfl hh).2.1]
  decide

/-- C3 as stated fails: one round trip (`R = 1`) and then the close; the receive
counter goes from 0 to 2, not to 1 (the send counter goes from 0 to 1 and the
shutdown counter from 0 to 1). -/
theorem C3_recvmsg_counts_close :
    (echo_server_worker ⟨1, 7⟩ 0 [⟨false, .data [0x68], 1⟩, ⟨false, .data [], 0⟩]
      ⟨⟨false, []⟩, ⟨0, 0, 0, 0, 0, 0, 0, 0⟩, [], []⟩).returned = true ∧
    (echo_server_worker ⟨1, 7⟩ 0 [⟨false, .data [0x68], 1⟩, ⟨false, .data [], 0⟩]
      ⟨⟨false, []⟩, ⟨0, 0, 0, 0, 0, 0, 0, 0⟩, [], []⟩).world.states =
      ⟨0, 0, 0, 2, 1, 1, 0, 0⟩ ∧
    (echo_server_worker ⟨1, 7⟩ 0 [⟨false, .data [0x68], 1⟩, ⟨false, .data [], 0⟩]
      ⟨⟨false, []⟩, ⟨0, 0, 0, 0, 0, 0, 0, 0⟩, [], []⟩).world.states.recvmsg ≠ 0 + 1 := by
  decide

/-- C4, as the code has it: whenever the worker returns, whichever way its loop
was left, its last two calls are the shutdown of its connection in both
directions and the release of the buffer, the shutdown counter has been
incremented once (by exactly 1 below `INT_MAX`), and the registry `daemon.worker`
is exactly as it was at the start: the worker removes nothing from it, its own
item included. -/
theorem C4_worker_exit (w : kecho) (kfail : Nat) (env : List Cycle) (g : World)
    (hret : (echo_server_worker w kfail env g).returned = true) :
    (∃ calls, (echo_server_worker w kfail env g).world.log =
      g.log ++ calls ++ [Event.kernel_sock_shutdown w.sock SHUT_RDWR, Event.kfree_buf]) ∧
    (echo_server_worker w kfail env g).world.states.shutdown =
      atomic_add 1 g.states.shutdown ∧
    (INT_MIN ≤ g.states.shutdown → g.states.shutdown < INT_MAX →
      (echo_server_worker w kfail env g).world.states.shutdown = g.states.shutdown + 1) ∧
    (echo_server_worker w kfail env g).world.daemon.worker = g.daemon.worker := by
  obtain ⟨k1, _, k3, _, _, _, _, _, _, k10⟩ := rekzalloc_frame kfail g
  have hf := echo_loop_frame w.sock env (List.replicate BUF_SIZE 0)
    ((rekzalloc kfail g).emit (.kzalloc BUF_SIZE true))
  have hl := echo_loop_log w.sock env (List.replicate BUF_SIZE 0)
    ((rekzalloc kfail g).emit (.kzalloc BUF_SIZE true))
  rcases hq : echo_loop w.sock env (List.replicate BUF_SIZE 0)
    ((rekzalloc kfail g).emit (.kzalloc BUF_SIZE true)) with ⟨b, buf1, g1⟩
  simp only [echo_server_worker, hq] at hret ⊢
  rw [hq] at hf hl
  cases b
  · simp at hret
  · obtain ⟨f1, _, f3, _, _, _⟩ := hf
    obtain ⟨calls, hc⟩ := hl
    simp only [World.emit, World.trace, TRACE_eq, states_add] at f1 f3 hc ⊢
    refine ⟨⟨List.replicate kfail (Event.kzalloc BUF_SIZE false) ++
      Event.kzalloc BUF_SIZE true :: calls, ?_⟩, ?_, ?_, ?_⟩
    · rw [hc, k10]; simp
    · rw [f3, k3]
    · intro hlo hhi
      rw [f3, k3]
      exact atomic_add_one_eq _ hlo hhi
    · rw [f1, k1]

/-- C4 at concrete runs, one for each way of leaving the loop: the flag is seen
set, the receive returns 0, the receive fails, the send fails. -/
theorem C4_worker_exit_witness :
    (echo_server_worker ⟨1, 7⟩ 0 [⟨true, .data [], 0⟩] sample_world).returned = true ∧
    (echo_server_worker ⟨1, 7⟩ 0 [⟨false, .data [], 0⟩] sample_world).returned = true ∧
    (echo_server_worker ⟨1, 7⟩ 0 [⟨false, .error 103, 0⟩] sample_world).returned = true ∧
    (echo_server_worker ⟨1, 7⟩ 0 [⟨false, .data [0x61], -32⟩] sample_world).returned = true ∧
    (echo_server_worker ⟨1, 7⟩ 0 [⟨true, .data [], 0⟩] sample_world).world.states.shutdown =
      atomic_add 1 0 ∧
    (echo_server_worker ⟨1, 7⟩ 0 [⟨false, .data [0x61], -32⟩] sample_world).world.daemon.worker =
      [⟨1, 7⟩] :=
  ⟨by decide, by decide, by decide, by decide,
    (C4_worker_exit ⟨1, 7⟩ 0 [⟨true, .data [], 0⟩] sample_world (by decide)).2.1,
    (C4_worker_exit ⟨1, 7⟩ 0 [⟨false, .data [0x61], -32⟩] sample_world (by decide)).2.2.2⟩

/-- C4 as stated fails: the worker of the item at address 1 returns after its
peer has closed, and the item is still in the registry `daemon.worker`. -/
theorem C4_item_stays_registered :
    (echo_server_worker ⟨1, 7⟩ 0 [⟨false, .data [], 0⟩] sample_world).returned = true ∧
    (⟨1, 7⟩ : kecho) ∈
      (echo_server_worker ⟨1, 7⟩ 0 [⟨false, .data [], 0⟩] sample_world).world.daemon.worker := by
  decide

/-- C5: for an accepted connection (`kernel_accept` did not fail) and any state of
the globals. If `kmalloc` fails, `create_work` returns NULL and the loop body
counts one `work_err` (plus 1 below `INT_MAX`), shuts the connection down in both
directions and releases it, queues nothing, leaves the registry and the other counters as they were, and
continues. If `kmalloc` succeeds, one item holding the connection is put at the
head of the registry and that item is queued; no counter changes. -/
theorem C5_dispatch (a : Accept) (g : World) (hacc : 0 ≤ a.error) :
    (a.kmalloc = none →
      (create_work a.sock a.kmalloc (g.emit (.kernel_accept a.error))).1 = none ∧
      (accept_body a g).1 = Ctl.continue_ ∧
      (accept_body a g).2.states =
        { g.states with work_err := atomic_add 1 g.states.work_err } ∧
      (INT_MIN ≤ g.states.work_err → g.states.work_err < INT_MAX →
        (accept_body a g).2.states.work_err = g.states.work_err + 1) ∧
      (accept_body a g).2.log = g.log ++ [Event.kernel_accept a.error, Event.kmalloc none,
        Event.kernel_sock_shutdown a.sock SHUT_RDWR, Event.sock_release a.sock] ∧
      (accept_body a g).2.kecho_wq = g.kecho_wq ∧
      (accept_body a g).2.daemon = g.daemon) ∧
    (∀ addr, a.kmalloc = some addr →
      (create_work a.sock a.kmalloc (g.emit (.kernel_accept a.error))).1 = some addr ∧
      (accept_body a g).1 = Ctl.continue_ ∧
      (accept_body a g).2.daemon.worker = ⟨addr, a.sock⟩ :: g.daemon.worker ∧
      (accept_body a g).2.daemon.worker.length = g.daemon.worker.length + 1 ∧
      (accept_body a g).2.daemon.is_stopped = g.daemon.is_stopped ∧
      (accept_body a g).2.kecho_wq = g.kecho_wq ++ [addr] ∧
      (accept_body a g).2.log = g.log ++ [Event.kernel_accept a.error,
        Event.kmalloc (some addr), Event.queue_work addr] ∧
      (accept_body a g).2.states = g.states) := by
  have hn : ¬ a.error < 0 := not_lt.mpr hacc
  constructor
  · intro hk
    have hst : (accept_body a g).2.states =
        { g.states with work_err := atomic_add 1 g.states.work_err } := by
      simp [accept_body, create_work, hk, hn, World.emit, World.trace, TRACE_eq, states_add]
    refine ⟨?_, ?_, hst, ?_, ?_, ?_, ?_⟩
    · simp [create_work, hk]
    · simp [accept_body, create_work, hk, hn]
    · intro hlo hhi
      rw [hst]
      exact atomic_add_one_eq _ hlo hhi
    · simp [accept_body, create_work, hk, hn, World.emit, World.trace]
    · simp [accept_body, create_work, hk, hn, World.emit, World.trace]
    · simp [accept_body, create_work, hk, hn, World.emit, World.trace]
  · intro addr hk
    simp [accept_body, create_work, hk, hn, World.emit, World.trace]

/-- C5 at concrete inputs: a connection on socket 7 accepted while the registry
holds one item. -/
theorem C5_dispatch_witness :
    (0 : Int) ≤ (⟨false, 0, 7, false, none⟩ : Accept).error ∧
    (accept_body ⟨false, 0, 7, false, none⟩
        ⟨⟨false, [⟨1, 5⟩]⟩, ⟨0, 0, 0, 0, 0, 0, 0, 3⟩, [1], []⟩).2.states.work_err = 4 ∧
    (accept_body ⟨false, 0, 7, false, some 2⟩
        ⟨⟨false, [⟨1, 5⟩]⟩, ⟨0, 0, 0, 0, 0, 0, 0, 3⟩, [1], []⟩).2.daemon.worker =
      [⟨2, 7⟩, ⟨1, 5⟩] := by
  have h := C5_dispatch ⟨false, 0, 7, false, none⟩
    ⟨⟨false, [⟨1, 5⟩]⟩, ⟨0, 0, 0, 0, 0, 0, 0, 3⟩, [1], []⟩ (by decide)
  have h2 := C5_dispatch ⟨false, 0, 7, false, some 2⟩
    ⟨⟨false, [⟨1, 5⟩]⟩, ⟨0, 0, 0, 0, 0, 0, 0, 3⟩, [1], []⟩ (by decide)
  refine ⟨by decide, ?_, ?_⟩
  · rw [(h.1 rfl).2.2.1]; decide
  · exact (h2.2 2 rfl).2.2.1

/-- C6, as the code has it: on a failed accept with no signal pending the loop body
counts one `accept_err` (plus 1 below `INT_MAX`), creates and queues no work item,
and control returns to
the loop condition, so that another accept is attempted if
`kthread_should_stop()` is then false, and the loop is left if it is true; on a
failed accept with a signal pending the loop is left and the shutdown sequence
runs. -/
theorem C6_failed_accept (a : Accept) (rest : List Accept) (g : World)
    (hstop : a.should_stop = false) (herr : a.error < 0) :
    (a.signal_pending = false →
      (accept_body a g).1 = Ctl.continue_ ∧
      (accept_body a g).2.states =
        { g.states with accept_err := atomic_add 1 g.states.accept_err } ∧
      (INT_MIN ≤ g.states.accept_err → g.states.accept_err < INT_MAX →
        (accept_body a g).2.states.accept_err = g.states.accept_err + 1) ∧
      (accept_body a g).2.log = g.log ++ [Event.kernel_accept a.error] ∧
      (accept_body a g).2.daemon = g.daemon ∧
      (accept_body a g).2.kecho_wq = g.kecho_wq ∧
      accept_loop (a :: rest) g = accept_loop rest (accept_body a g).2 ∧
      (∀ b rest1, rest = b :: rest1 → b.should_stop = false →
        ∃ calls, (accept_body b (accept_body a g).2).2.log =
          g.log ++ [Event.kernel_accept a.error, Event.kernel_accept b.error] ++ calls) ∧
      (∀ b rest1, rest = b :: rest1 → b.should_stop = true →
        accept_loop (a :: rest) g = (true, (accept_body a g).2))) ∧
    (a.signal_pending = true →
      accept_loop (a :: rest) g = (true, g.emit (.kernel_accept a.error)) ∧
      daemon_from_loop (a :: rest) g =
        (true, shutdown_sequence (g.emit (.kernel_accept a.error)))) := by
  constructor
  · intro hsig
    have hb : accept_body a g =
        (Ctl.continue_, (g.emit (.kernel_accept a.error)).trace .accept_err) := by
      simp [accept_body, herr, hsig]
    have hl : accept_loop (a :: rest) g = accept_loop rest (accept_body a g).2 := by
      rw [accept_loop, hb]; simp [hstop]
    refine ⟨by rw [hb], ?_, ?_, ?_, ?_, ?_, hl, ?_, ?_⟩
    · rw [hb]; simp [World.emit, World.trace, TRACE_eq, states_add]
    · intro hlo hhi
      rw [hb]
      simp only [World.emit, World.trace, TRACE_eq, states_add]
      exact atomic_add_one_eq _ hlo hhi
    · rw [hb]; simp [World.emit, World.trace]
    · rw [hb]; simp [World.emit, World.trace]
    · rw [hb]; simp [World.emit, World.trace]
    · intro b rest1 _ _
      rw [hb]
      unfold accept_body
      by_cases h1 : b.error < 0
      · by_cases h2 : b.signal_pending = true
        · exact ⟨[], by simp [h1, h2, World.emit, World.trace]⟩
        · exact ⟨[], by simp [h1, h2, World.emit, World.trace]⟩
      · cases hk : b.kmalloc with
        | none =>
          exact ⟨_, by simp [h1, hk, create_work, World.emit, World.trace]; rfl⟩
        | some addr =>
          exact ⟨_, by simp [h1, hk, create_work, World.emit, World.trace]; rfl⟩
    · intro b rest1 hr hs
      rw [hl, hr, accept_loop]; simp [hs]
  · intro hsig
    have hb : accept_body a g = (Ctl.break_, g.emit (.kernel_accept a.error)) := by
      simp [accept_body, herr, hsig]
    have hl : accept_loop (a :: rest) g = (true, g.emit (.kernel_accept a.error)) := by
      rw [accept_loop, hb]; simp [hstop]
    refine ⟨hl, ?_⟩
    rw [daemon_from_loop, hl]

/-- C6 at concrete inputs: a failed accept without a pending signal, then one
with a pending signal. -/
theorem C6_failed_accept_witness :
    (⟨false, -11, 0, false, none⟩ : Accept).should_stop = false ∧
    (⟨false, -11, 0, false, none⟩ : Accept).error < 0 ∧
    (accept_body ⟨false, -11, 0, false, none⟩
        ⟨⟨false, []⟩, ⟨0, 0, 0, 0, 0, 0, 5, 0⟩, [], []⟩).2.states.accept_err = 6 ∧
    daemon_from_loop [⟨false, -4, 0, true, none⟩]
        ⟨⟨false, []⟩, ⟨0, 0, 0, 0, 0, 0, 5, 0⟩, [], []⟩ =
      (true, shutdown_sequence
        ((⟨⟨false, []⟩, ⟨0, 0, 0, 0, 0, 0, 5, 0⟩, [], []⟩ : World).emit
          (.kernel_accept (-4)))) := by
  have h := C6_failed_accept ⟨false, -11, 0, false, none⟩ []
    ⟨⟨false, []⟩, ⟨0, 0, 0, 0, 0, 0, 5, 0⟩, [], []⟩ rfl (by decide)
  have h2 := C6_failed_accept ⟨false, -4, 0, true, none⟩ []
    ⟨⟨false, []⟩, ⟨0, 0, 0, 0, 0, 0, 5, 0⟩, [], []⟩ rfl (by decide)
  refine ⟨rfl, by decide, ?_, (h2.2 rfl).2⟩
  rw [(h.1 rfl).2.1]; decide

/-- C6 as stated fails: the accept fails with no signal pending, `accept_err` is
counted, and then `kthread_should_stop()` is true at the loop condition: the
loop is left and the shutdown sequence runs without another accept attempt (the
log holds one `kernel_accept` only). -/
theorem C6_no_further_accept :
    (⟨false, -11, 0, false, none⟩ : Accept).error < 0 ∧
    (⟨false, -11, 0, false, none⟩ : Accept).signal_pending = false ∧
    daemon_from_loop [⟨false, -11, 0, false, none⟩, ⟨true, 0, 0, false, none⟩]
        ⟨⟨false, []⟩, ⟨0, 0, 0, 0, 0, 0, 0, 0⟩, [], []⟩ =
      (true, ⟨⟨true, []⟩, ⟨0, 0, 0, 0, 0, 0, 1, 0⟩, [],
        [Event.kernel_accept (-11), Event.printk ⟨0, 0, 0, 0, 0, 0, 1, 0⟩]⟩) := by
  decide

/-- C7: when a receive of the worker returns `r ≤ 0`, the loop is left and the
only call of that pass is the receive (no send is issued); `get_err` is
incremented once when `r < 0` (by exactly 1 below `INT_MAX`) and is unchanged
when `r = 0`; `kzalloc_err`,
`send_err`, `accept_err` and `work_err` are unchanged. In particular, when the
first receive of a worker whose `kzalloc` succeeded at once returns 0 (the client
closed right after connecting), the worker returns with all five error
counters unchanged, having called `kzalloc`, the receive, the shutdown and the
`kfree` only. -/
theorem C7_receive_end (sock : Nat) (c : Cycle) (cs : List Cycle) (buf : List Nat)
    (g : World) (hflag : g.daemon.is_stopped = false) (hstop : c.daemon_stops = false)
    (hr : (kernel_recvmsg c.recv buf).1 ≤ 0) :
    (echo_loop sock (c :: cs) buf g).1 = true ∧
    (echo_loop sock (c :: cs) buf g).2.2.log =
      g.log ++ [Event.kernel_recvmsg sock (BUF_SIZE - 1) (kernel_recvmsg c.recv buf).2
        (kernel_recvmsg c.recv buf).1] ∧
    ((kernel_recvmsg c.recv buf).1 < 0 →
      (echo_loop sock (c :: cs) buf g).2.2.states.get_err = atomic_add 1 g.states.get_err) ∧
    ((kernel_recvmsg c.recv buf).1 < 0 → INT_MIN ≤ g.states.get_err →
      g.states.get_err < INT_MAX →
      (echo_loop sock (c :: cs) buf g).2.2.states.get_err = g.states.get_err + 1) ∧
    ((kernel_recvmsg c.recv buf).1 = 0 →
      (echo_loop sock (c :: cs) buf g).2.2.states.get_err = g.states.get_err) ∧
    (echo_loop sock (c :: cs) buf g).2.2.states.kzalloc_err = g.states.kzalloc_err ∧
    (echo_loop sock (c :: cs) buf g).2.2.states.send_err = g.states.send_err ∧
    (echo_loop sock (c :: cs) buf g).2.2.states.accept_err = g.states.accept_err ∧
    (echo_loop sock (c :: cs) buf g).2.2.states.work_err = g.states.work_err ∧
    (c.recv = Recv.data [] → ∀ w : kecho,
      (echo_server_worker w 0 (c :: cs) g).returned = true ∧
      (echo_server_worker w 0 (c :: cs) g).world.states.kzalloc_err = g.states.kzalloc_err ∧
      (echo_server_worker w 0 (c :: cs) g).world.states.get_err = g.states.get_err ∧
      (echo_server_worker w 0 (c :: cs) g).world.states.send_err = g.states.send_err ∧
      (echo_server_worker w 0 (c :: cs) g).world.states.accept_err = g.states.accept_err ∧
      (echo_server_worker w 0 (c :: cs) g).world.states.work_err = g.states.work_err ∧
      (echo_server_worker w 0 (c :: cs) g).world.log =
        g.log ++ [Event.kzalloc BUF_SIZE true,
          Event.kernel_recvmsg w.sock (BUF_SIZE - 1) (List.replicate BUF_SIZE 0) 0,
          Event.kernel_sock_shutdown w.sock SHUT_RDWR, Event.kfree_buf]) := by
  rw [echo_loop_recv_end sock c cs buf g hflag hstop hr,
    echo_pass_recv_end sock c buf g hflag hstop hr]
  refine ⟨rfl, ?_, ?_, ?_, ?_, ?_, ?_, ?_, ?_, ?_⟩
  · split <;> simp [World.emit, World.trace]
  · intro hneg
    rw [if_pos (ne_of_lt hneg)]
    simp [World.emit, World.trace, TRACE_eq, states_add]
  · intro hneg hlo hhi
    rw [if_pos (ne_of_lt hneg)]
    simp only [World.emit, World.trace, TRACE_eq, states_add]
    exact atomic_add_one_eq _ hlo hhi
  · intro hzero
    rw [if_neg (not_not.mpr hzero)]
    simp [World.emit, World.trace, TRACE_eq, states_add]
  · split <;> simp [World.emit, World.trace, TRACE_eq, states_add]
  · split <;> simp [World.emit, World.trace, TRACE_eq, states_add]
  · split <;> simp [World.emit, World.trace, TRACE_eq, states_add]
  · split <;> simp [World.emit, World.trace, TRACE_eq, states_add]
  · intro hc w
    have hr0 : (kernel_recvmsg c.recv (List.replicate BUF_SIZE 0)) =
        (0, List.replicate BUF_SIZE 0) := by
      rw [hc]; simp [kernel_recvmsg]
    have hflag0 : (g.emit (.kzalloc BUF_SIZE true)).daemon.is_stopped = false := hflag
    have hl := echo_loop_recv_end w.sock c cs (List.replicate BUF_SIZE 0)
      (g.emit (.kzalloc BUF_SIZE true)) hflag0 hstop (by rw [hr0])
    have hp := echo_pass_recv_end w.sock c (List.replicate BUF_SIZE 0)
      (g.emit (.kzalloc BUF_SIZE true)) hflag0 hstop (by rw [hr0])
    rw [hr0] at hp
    simp only [ne_eq, not_true_eq_false, if_false] at hp
    simp only [echo_server_worker, rekzalloc, hl, hp]
    simp [World.emit, World.trace, TRACE_eq, states_add]

/-- C7 at concrete inputs: a receive that fails with -104 after one byte had been
left in the buffer, and a close right after connecting. -/
theorem C7_receive_end_witness :
    (kernel_recvmsg (.error 103) [0x41, 0]).1 ≤ 0 ∧
    (echo_loop 7 [⟨false, .error 103, 0⟩] [0x41, 0]
      ⟨⟨false, []⟩, ⟨0, 4, 0, 0, 0, 0, 0, 0⟩, [], []⟩).2.2.states.get_err = atomic_add 1 4 ∧
    (echo_server_worker ⟨1, 7⟩ 0 [⟨false, .data [], 0⟩]
      ⟨⟨false, []⟩, ⟨0, 4, 0, 0, 0, 0, 0, 0⟩, [], []⟩).world.states.get_err = 4 :=
  ⟨by decide,
    (C7_receive_end 7 ⟨false, .error 103, 0⟩ [] [0x41, 0]
      ⟨⟨false, []⟩, ⟨0, 4, 0, 0, 0, 0, 0, 0⟩, [], []⟩ rfl rfl (by decide)).2.2.1 (by decide),
    ((C7_receive_end 7 ⟨false, .data [], 0⟩ [] []
      ⟨⟨false, []⟩, ⟨0, 4, 0, 0, 0, 0, 0, 0⟩, [], []⟩ rfl rfl (by decide)).2.2.2.2.2.2.2.2.2
        rfl ⟨1, 7⟩).2.2.1⟩

/-- C9 fails on the code when a send is partial: two bytes are received, the send
returns 1, `memset(buf, 0, 1)` clears the first byte only, and the worker is at
its next receive with 0x42 still at index 1 of the buffer. -/
theorem C9_partial_send_leaves_bytes :
    (echo_server_worker ⟨1, 7⟩ 0 [⟨false, .data [0x41, 0x42], 1⟩] sample_world).returned
      = false ∧
    (echo_server_worker ⟨1, 7⟩ 0 [⟨false, .data [0x41, 0x42], 1⟩] sample_world).world.log[2]?
      = some (Event.kernel_sendmsg 7 (some [0x41, 0x42]) 2 1) ∧
    (echo_server_worker ⟨1, 7⟩ 0 [⟨false, .data [0x41, 0x42], 1⟩] sample_world).buf.take 3
      = [0, 0x42, 0] := by
  decide

/-- C10: in every run of `echo_server_worker` in which each receive stores at most
the `BUF_SIZE - 1` = 4095 bytes asked for, whatever the receives and sends return
and however far the run has got, the buffer is 4096 bytes long and its last byte
(index 4095) is zero: after `kzalloc`, after every receive and after every
`memset`, as the logged calls show. Hence each `strlen(buf)` of `send_request`
finds a terminator inside the buffer, at an index of at most 4095. -/
theorem C10_buffer_terminated (w : kecho) (kfail : Nat) (env : List Cycle) (g : World)
    (hrecv : ∀ c ∈ env, ∀ bytes, c.recv = .data bytes → bytes.length ≤ BUF_SIZE - 1) :
    (echo_server_worker w kfail env g).buf.length = BUF_SIZE ∧
    (echo_server_worker w kfail env g).buf[BUF_SIZE - 1]? = some 0 ∧
    (∃ n, strlen (echo_server_worker w kfail env g).buf = some n ∧ n ≤ BUF_SIZE - 1) ∧
    ∃ calls, (echo_server_worker w kfail env g).world.log = g.log ++ calls ∧
      ∀ e ∈ calls, e.terminated := by
  obtain ⟨_, _, _, _, _, _, _, _, _, k10⟩ := rekzalloc_frame kfail g
  have hloop := echo_loop_induction w.sock env
    (fun buf1 g1 => (buf1.length = BUF_SIZE ∧ buf1[BUF_SIZE - 1]? = some 0) ∧
      ∃ calls, g1.log = g.log ++ calls ∧ ∀ e ∈ calls, e.terminated)
    (by
      intro c hc buf1 g1 ⟨⟨hl, hz⟩, calls, hlog, hall⟩
      obtain ⟨hinv, calls1, hlog1, hall1⟩ :=
        echo_pass_terminated w.sock c buf1 g1 (hrecv c hc) hl hz
      refine ⟨hinv, calls ++ calls1, by rw [hlog1, hlog, List.append_assoc], ?_⟩
      intro e he
      rcases List.mem_append.mp he with h | h
      · exact hall e h
      · exact hall1 e h)
    (List.replicate BUF_SIZE 0) ((rekzalloc kfail g).emit (.kzalloc BUF_SIZE true))
    ⟨terminated_fresh,
      List.replicate kfail (Event.kzalloc BUF_SIZE false) ++ [Event.kzalloc BUF_SIZE true],
      by simp [World.emit, k10],
      by
        intro e he
        rcases List.mem_append.mp he with h | h
        · rw [List.eq_of_mem_replicate h]; exact trivial
        · rw [List.mem_singleton.mp h]; exact trivial⟩
  rcases hq : echo_loop w.sock env (List.replicate BUF_SIZE 0)
    ((rekzalloc kfail g).emit (.kzalloc BUF_SIZE true)) with ⟨b, buf1, g1⟩
  rw [hq] at hloop
  obtain ⟨⟨hl, hz⟩, calls, hlog, hall⟩ := hloop
  simp only [] at hl hz hlog
  simp only [echo_server_worker, hq]
  cases b
  · exact ⟨hl, hz, strlen_of_zero_at _ _ hz, calls, hlog, hall⟩
  · refine ⟨hl, hz, strlen_of_zero_at _ _ hz,
      calls ++ [Event.kernel_sock_shutdown w.sock SHUT_RDWR, Event.kfree_buf], ?_, ?_⟩
    · simp [World.emit, World.trace, hlog]
    · intro e he
      rcases List.mem_append.mp he with h | h
      · exact hall e h
      · simp only [List.mem_cons, List.mem_singleton, List.not_mem_nil, or_false] at h
        rcases h with rfl | rfl <;> exact trivial

/-- C10 at a concrete run: a full-size receive of 4095 bytes, a partial send, and
a second receive. -/
theorem C10_buffer_terminated_witness :
    (∀ c ∈ [(⟨false, .data (List.replicate 4095 0x41), 100⟩ : Cycle),
        ⟨false, .data [0x42], 1⟩],
      ∀ bytes, c.recv = .data bytes → bytes.length ≤ BUF_SIZE - 1) ∧
    (echo_server_worker ⟨1, 7⟩ 0
      [⟨false, .data (List.replicate 4095 0x41), 100⟩, ⟨false, .data [0x42], 1⟩]
      sample_world).buf[BUF_SIZE - 1]? = some 0 := by
  have hh : ∀ c ∈ [(⟨false, .data (List.replicate 4095 0x41), 100⟩ : Cycle),
        ⟨false, .data [0x42], 1⟩],
      ∀ bytes, c.recv = .data bytes → bytes.length ≤ BUF_SIZE - 1 := by
    intro c hc bytes hb
    simp only [List.mem_cons, List.mem_singleton, List.not_mem_nil, or_false] at hc
    rcases hc with rfl | rfl
    · cases hb; rw [List.length_replicate]; decide
    · cases hb; decide
  exact ⟨hh, (C10_buffer_terminated ⟨1, 7⟩ 0 _ _ hh).2.1⟩

end Server

end Kecho
